import Mathlib

/-!
# Startup code of the RH850G3K (`Startup.c`)

A shallow embedding of the crt0 in `Startup.c` and the properties of it that
the specification states.

Conventions of the embedding.

* Registers, `unsigned int` values and addresses are natural numbers below
  `4294967296 = 2^32`; every arithmetic result that the machine keeps in 32 bits
  is reduced `% 4294967296` where it is computed.
* Memory is byte addressed.  Besides its content it carries `stores`, the number
  of store operations performed so far (one per `st.w`, one per byte assignment
  of the C code), so that "writes nothing" and "performs n stores" can be said.
* The table `__ghsbegin_secinfo[]` is a `const` array of unknown bound: it is a
  function from the index to the record, and no store changes it.
* The values of the linker symbols are parameters (`LinkerSymbols`).
* The header `for(int i=0;i<size;i++)` is `forLoop`, with the counter as the
  comparison sees it; `forLoopInt` is the same header with the counter as the
  signed `int` it is, overflow included, and agrees with it below `2^31`;
  `SysStartup_InitMemory_int` is the table executor with the signed counters.
* The C functions are modelled on the memory alone (C abstract machine); the two
  `asm` functions are modelled instruction by instruction on the registers they
  name and the memory.
-/

namespace RH850

/-! ## Memory -/

/-- Byte-addressed memory with a count of the store operations performed. -/
structure Memory where
  /-- Content: the byte held at each address. -/
  byte : Nat → Nat
  /-- Number of store operations performed so far. -/
  stores : Nat

/-- Store of one byte: `*((unsigned char*)a) = v`, the address taken in 32 bits;
`value` is a byte, a number below 256. -/
def Memory.storeByte (m : Memory) (addr value : Nat) : Memory :=
  { byte := fun a => if a = addr % 4294967296 then value else m.byte a
    stores := m.stores + 1 }

/-- Load of one byte, the address taken in 32 bits. -/
def Memory.loadByte (m : Memory) (addr : Nat) : Nat :=
  m.byte (addr % 4294967296)

/-- Store of one 32-bit word, `st.w`: four bytes, least significant first
(the RH850 is little endian). -/
def Memory.storeWord (m : Memory) (addr w : Nat) : Memory :=
  { byte := fun a =>
      if a = addr % 4294967296 then w % 256
      else if a = (addr + 1) % 4294967296 then w / 256 % 256
      else if a = (addr + 2) % 4294967296 then w / 65536 % 256
      else if a = (addr + 3) % 4294967296 then w / 16777216 % 256
      else m.byte a
    stores := m.stores + 1 }

/-- Load of one 32-bit word, little endian. -/
def Memory.loadWord (m : Memory) (addr : Nat) : Nat :=
  m.loadByte addr + 256 * m.loadByte (addr + 1) + 65536 * m.loadByte (addr + 2)
    + 16777216 * m.loadByte (addr + 3)

/-! ## Types and linker variables -/

/-- One record of the `.secinfo` table, `runtimeCopyTable_t`. -/
structure runtimeCopyTable_t where
  /-- Target Address (section in RAM memory). -/
  targetAddr : Nat
  /-- Source Address (section in ROM memory). -/
  sourceAddr : Nat
  /-- Length of section (bytes). -/
  size : Nat
  deriving DecidableEq, Repr

/-- Values of the linker symbols the startup code refers to (the address of each
`extern` object, and the value of each symbol that the assembly loads). -/
structure LinkerSymbols where
  /-- Address of the first record of the table. -/
  __ghsbegin_secinfo : Nat
  /-- Byte length of the table. -/
  __ghssize_secinfo : Nat
  __ghsbinfo_clear : Nat
  __ghseinfo_clear : Nat
  __ghsbinfo_copy : Nat
  __ghseinfo_copy : Nat
  __ghsbegin_stack : Nat
  __ghsend_stack : Nat
  /-- Byte length of the `.stack` section, `___ghssize_stack` in the assembly. -/
  __ghssize_stack : Nat
  __gp : Nat
  __tp : Nat
  __ghsbegin_intvect : Nat
  /-- Address of `main`. -/
  _main : Nat
  /-- Address of `SysStartup_UnexpectedExitFromMain`. -/
  _SysStartup_UnexpectedExitFromMain : Nat

/-- `sizeof(runtimeCopyTable_t)`: three `unsigned int`. -/
def sizeof_runtimeCopyTable_t : Nat := 12

/-! ## Registers -/

/-- The registers named by the startup code, and the memory. -/
structure Machine where
  r1 : Nat
  r10 : Nat
  r20 : Nat
  r21 : Nat
  r22 : Nat
  sp : Nat
  gp : Nat
  tp : Nat
  lp : Nat
  pc : Nat
  RBASE : Nat
  mem : Memory

/-! ## The C loops -/

/-- The loop `for(int i=0;i<size;i++) body`, the header of all three loops of the
file.  The counter is kept as the value the comparison `i<size` sees (`i`
converted to `unsigned int`); it never passes `size`.  The first argument after
`body` bounds the number of iterations; the loop needs `size` of them
(`forLoop_fuel`). -/
def forLoop {σ : Type} (size : Nat) (body : Nat → σ → σ) : Nat → Nat → σ → σ
  | 0, _, s => s
  | fuel + 1, i, s =>
    if i < size then forLoop size body fuel (i + 1) (body i s) else s

/-- The function `SysStartup_Memset`: `*((unsigned char*)(ptr+i)) = value`, the
`int` value converted to `unsigned char`. -/
def SysStartup_Memset (m : Memory) (ptr : Nat) (value : Int) (size : Nat) : Memory :=
  forLoop size (fun i m => m.storeByte (ptr + i) (value % 256).toNat) size 0 m

/-- The function `SysStartup_Memcpy`:
`*((unsigned char*)(target+i)) = *((const unsigned char*)(source+i))`. -/
def SysStartup_Memcpy (m : Memory) (target source size : Nat) : Memory :=
  forLoop size (fun i m => m.storeByte (target + i) (m.loadByte (source + i))) size 0 m

/-- The address `(unsigned int)&__ghsbegin_secinfo[i]` of record `i`. -/
def recordAddr (L : LinkerSymbols) (i : Nat) : Nat :=
  (L.__ghsbegin_secinfo + sizeof_runtimeCopyTable_t * i) % 4294967296

/-- Body of the loop of `SysStartup_InitMemory` for index `i`. -/
def SysStartup_InitMemory_body (L : LinkerSymbols) (secinfo : Nat → runtimeCopyTable_t)
    (i : Nat) (m : Memory) : Memory :=
  /- CLEAR TABLE -/
  let m1 :=
    if recordAddr L i ≥ L.__ghsbinfo_clear ∧ recordAddr L i < L.__ghseinfo_clear then
      /- Clear Memory Area -/
      if (secinfo i).targetAddr < L.__ghsbegin_stack ∨
          (secinfo i).targetAddr > L.__ghsend_stack then
        SysStartup_Memset m (secinfo i).targetAddr 0 (secinfo i).size
      else m
    else m
  /- COPY TABLE -/
  if recordAddr L i ≥ L.__ghsbinfo_copy ∧ recordAddr L i < L.__ghseinfo_copy then
    /- Copy Memory Area -/
    SysStartup_Memcpy m1 (secinfo i).targetAddr (secinfo i).sourceAddr (secinfo i).size
  else m1

/-- The function `SysStartup_InitMemory`. -/
def SysStartup_InitMemory (L : LinkerSymbols) (secinfo : Nat → runtimeCopyTable_t)
    (m : Memory) : Memory :=
  let size := L.__ghssize_secinfo / sizeof_runtimeCopyTable_t
  forLoop size (SysStartup_InitMemory_body L secinfo) size 0 m

/-! ## Vocabulary of the properties -/

/-- Address `a` is one of the `size` bytes that start at `ptr` (addresses taken
in 32 bits, so a region that passes the top of the address space wraps). -/
def inRegion (ptr size a : Nat) : Prop :=
  ∃ k, k < size ∧ a = (ptr + k) % 4294967296

instance (ptr size a : Nat) : Decidable (inRegion ptr size a) := by
  unfold inRegion; infer_instance

/-- Record `i` lies in the clear sub-range of the table. -/
def isClearEntry (L : LinkerSymbols) (i : Nat) : Prop :=
  L.__ghsbinfo_clear ≤ recordAddr L i ∧ recordAddr L i < L.__ghseinfo_clear

/-- Record `i` lies in the copy sub-range of the table. -/
def isCopyEntry (L : LinkerSymbols) (i : Nat) : Prop :=
  L.__ghsbinfo_copy ≤ recordAddr L i ∧ recordAddr L i < L.__ghseinfo_copy

/-- Address `a` lies in the closed range `[stackBegin, stackEnd]`. -/
def inStack (L : LinkerSymbols) (a : Nat) : Prop :=
  L.__ghsbegin_stack ≤ a ∧ a ≤ L.__ghsend_stack

instance (L : LinkerSymbols) (i : Nat) : Decidable (isClearEntry L i) := by
  unfold isClearEntry; infer_instance

instance (L : LinkerSymbols) (i : Nat) : Decidable (isCopyEntry L i) := by
  unfold isCopyEntry; infer_instance

instance (L : LinkerSymbols) (a : Nat) : Decidable (inStack L a) := by
  unfold inStack; infer_instance

/-- Number of records `SysStartup_InitMemory` visits. -/
def entryCount (L : LinkerSymbols) : Nat :=
  L.__ghssize_secinfo / sizeof_runtimeCopyTable_t

/-- Memory after the first `k` iterations of the loop of `SysStartup_InitMemory`. -/
def memAfter (L : LinkerSymbols) (secinfo : Nat → runtimeCopyTable_t) (m : Memory)
    (k : Nat) : Memory :=
  (List.range k).foldl (fun m i => SysStartup_InitMemory_body L secinfo i m) m

/-! ## The assembly functions -/

/-- One pass through the body of the loop at `again:` up to the comparison:
`st.w r22,0[r20]`, `add 4,r20`, `add -4,r21`. -/
def again_body (s : Machine) : Machine :=
  let s := { s with mem := s.mem.storeWord s.r20 s.r22 }
  let s := { s with r20 := (s.r20 + 4) % 4294967296 }
  { s with r21 := (s.r21 + 4294967292) % 4294967296 }

/-- The loop at `again:`; `cmp r21,r0` and `bne again` repeat the body while
`r21` is not zero, the test coming after the body (the flags of the PSW are not
kept: `bne` reads the result of the `cmp` just before it).  The first argument
bounds the number of passes; `none` when the loop has not ended within it. -/
def again : Nat → Machine → Option Machine
  | 0, _ => none
  | fuel + 1, s =>
    let s := again_body s
    if s.r21 ≠ 0 then again fuel s else some s

/-- The part `-- Init stack` of `SysStartup_CallMainFunction`: the three `mov`
and the loop. -/
def SysStartup_CallMainFunction_InitStack (L : LinkerSymbols) (fuel : Nat) (s : Machine) :
    Option Machine :=
  let s := { s with r20 := L.__ghsbegin_stack }
  let s := { s with r21 := L.__ghssize_stack }
  let s := { s with r22 := 0xAAAAAAAA }
  again fuel s

/-- The function `SysStartup_CallMainFunction`; the result is the state at the
moment `jmp r1` has transferred control. -/
def SysStartup_CallMainFunction (L : LinkerSymbols) (fuel : Nat) (s : Machine) :
    Option Machine :=
  match SysStartup_CallMainFunction_InitStack L fuel s with
  | none => none
  | some s =>
    /- Init stack pointer -/
    let s := { s with sp := L.__ghsend_stack }
    /- align the stack to a 4-byte boundary -/
    let s := { s with r1 := 4294967292 }
    let s := { s with sp := s.sp &&& s.r1 }
    /- Jump to main -/
    let s := { s with lp := L._SysStartup_UnexpectedExitFromMain }
    let s := { s with r1 := L._main }
    some { s with pc := s.r1 }

/-- The function `SysStartup_RuntimeEnvironment` (`ldsr r10, RBASE, 1` writes the
system register `RBASE`). -/
def SysStartup_RuntimeEnvironment (L : LinkerSymbols) (s : Machine) : Machine :=
  let s := { s with gp := L.__gp }
  let s := { s with tp := L.__tp }
  /- Initialize the stack pointer (to the top of .stack section). -/
  let s := { s with sp := L.__ghsend_stack }
  /- align the stack to a 4-byte boundary -/
  let s := { s with r1 := 4294967292 }
  let s := { s with sp := s.sp &&& s.r1 }
  /- Set RBASE register address -/
  let s := { s with r10 := L.__ghsbegin_intvect }
  { s with RBASE := s.r10 }

/-- Return of a function to its caller, `jmp [lp]`. -/
def jmp_lp (s : Machine) : Machine :=
  { s with pc := s.lp }

/-! ## The startup sequence -/

/-- The functions `SysStartup` calls. -/
inductive Call where
  | RuntimeEnvironment
  | InitSysClocks
  | InitMemory
  | CallMainFunction
  deriving DecidableEq, Repr

/-- State of a run of `SysStartup`: the calls made so far, in order, and the
machine; `machine` is `none` when `SysStartup_CallMainFunction` has not left
its loop within the passes allowed. -/
structure Run where
  calls : List Call
  machine : Option Machine

/-- The statement `CALL_WEAK_FUNC(function)`, that is `if(function) function();`:
the weak symbol is `none` when no definition is linked in. -/
def CALL_WEAK_FUNC (function : Option (Machine → Machine)) (calls : List Call)
    (s : Machine) : List Call × Machine :=
  match function with
  | some f => (calls ++ [Call.InitSysClocks], f s)
  | none => (calls, s)

/-- The function `SysStartup`. -/
def SysStartup (L : LinkerSymbols) (secinfo : Nat → runtimeCopyTable_t)
    (InitSysClocks : Option (Machine → Machine)) (fuel : Nat) (s : Machine) : Run :=
  /- Initial C runtime Environment -/
  let s := SysStartup_RuntimeEnvironment L s
  let calls := [Call.RuntimeEnvironment]
  /- Init system clocks -/
  let (calls, s) := CALL_WEAK_FUNC InitSysClocks calls s
  /- Runtime Clear and Copy table -/
  let s := { s with mem := SysStartup_InitMemory L secinfo s.mem }
  let calls := calls ++ [Call.InitMemory]
  /- Jump to the main. -/
  { calls := calls ++ [Call.CallMainFunction]
    machine := SysStartup_CallMainFunction L fuel s }

/-- Control points of `SysStartup_UnexpectedExitFromMain`: the head of the loop
`for(;;);` and the end of the function, after the loop. -/
inductive TrapPoint where
  | loop
  | exit
  deriving DecidableEq, Repr

/-- One step of `SysStartup_UnexpectedExitFromMain`: the loop `for(;;);` has no
condition and an empty body, so from its head control goes back to its head and
nothing is written. -/
def SysStartup_UnexpectedExitFromMain (c : TrapPoint × Machine) : TrapPoint × Machine :=
  match c with
  | (TrapPoint.loop, s) => (TrapPoint.loop, s)
  | (TrapPoint.exit, s) => (TrapPoint.exit, s)

/-! ## Vocabulary: the stores of an iteration -/

/-- Iteration `i` applies the clear: record `i` lies in the clear sub-range and
its target is outside `[stackBegin, stackEnd]`. -/
def clearApplied (L : LinkerSymbols) (secinfo : Nat → runtimeCopyTable_t) (i : Nat) : Prop :=
  isClearEntry L i ∧ ¬ inStack L (secinfo i).targetAddr

instance (L : LinkerSymbols) (secinfo : Nat → runtimeCopyTable_t) (i : Nat) :
    Decidable (clearApplied L secinfo i) := by
  unfold clearApplied; infer_instance

/-- Iteration `i` stores to address `a`: record `i` is applied (as a clear or as
a copy) and `a` is a byte of its target region. -/
def writesAt (L : LinkerSymbols) (secinfo : Nat → runtimeCopyTable_t) (i a : Nat) : Prop :=
  (clearApplied L secinfo i ∨ isCopyEntry L i) ∧
    inRegion (secinfo i).targetAddr (secinfo i).size a

instance (L : LinkerSymbols) (secinfo : Nat → runtimeCopyTable_t) (i a : Nat) :
    Decidable (writesAt L secinfo i a) := by
  unfold writesAt; infer_instance

/-! ## Concrete images used as examples -/

/-- A memory whose bytes are all non-zero and differ from address to address. -/
def ramPattern : Memory :=
  { byte := fun a => a % 255 + 1, stores := 0 }

/-- Linker symbols of an image whose table lies at `0x100`, with the clear
sub-range `[clearB, clearE)`, the copy sub-range `[copyB, copyE)`, the table
length `tableSize` and the stack `[stackB, stackE)`. -/
def image (tableSize clearB clearE copyB copyE stackB stackE : Nat) : LinkerSymbols :=
  { __ghsbegin_secinfo := 0x100
    __ghssize_secinfo := tableSize
    __ghsbinfo_clear := clearB
    __ghseinfo_clear := clearE
    __ghsbinfo_copy := copyB
    __ghseinfo_copy := copyE
    __ghsbegin_stack := stackB
    __ghsend_stack := stackE
    __ghssize_stack := stackE - stackB
    __gp := 0xFEDE0000
    __tp := 0x00010000
    __ghsbegin_intvect := 0x200
    _main := 0x400
    _SysStartup_UnexpectedExitFromMain := 0x440 }

/-- One record, in the clear sub-range; stack at `[0x3000, 0x4000)`. -/
def imageClear : LinkerSymbols := image 12 0x100 0x10C 0x10C 0x10C 0x3000 0x4000

/-- One record, in the copy sub-range; stack at `[0x3000, 0x4000)`. -/
def imageCopy : LinkerSymbols := image 12 0x100 0x100 0x100 0x10C 0x3000 0x4000

/-- Two records, the first in the clear sub-range and the second in the copy
sub-range. -/
def imageClearCopy : LinkerSymbols := image 24 0x100 0x10C 0x10C 0x118 0x3000 0x4000

/-- Three records, the first two in the copy sub-range, the third in neither. -/
def imageCopyCopyPad : LinkerSymbols := image 36 0x100 0x100 0x100 0x118 0x3000 0x4000

/-- Three records: one in the clear sub-range, one in neither, one in the copy
sub-range. -/
def imageClearPadCopy : LinkerSymbols := image 36 0x100 0x10C 0x118 0x124 0x3000 0x4000

/-- One record that lies in the clear sub-range and in the copy sub-range. -/
def imageBoth : LinkerSymbols := image 12 0x100 0x10C 0x100 0x10C 0x3000 0x4000

/-- Table of scenario B: clear of 32 bytes at `0x2000`. -/
def tableB : Nat → runtimeCopyTable_t :=
  fun _ => { targetAddr := 0x2000, sourceAddr := 0, size := 32 }

/-- Table of scenario A: copy of 16 bytes from `0x8000` to `0x1000`. -/
def tableA : Nat → runtimeCopyTable_t :=
  fun _ => { targetAddr := 0x1000, sourceAddr := 0x8000, size := 16 }

/-- Table of scenario C: the target of the record is `stackBegin`. -/
def tableC : Nat → runtimeCopyTable_t :=
  fun _ => { targetAddr := 0x3000, sourceAddr := 0x8000, size := 32 }

/-- A section that is listed for clearing and then for copying. -/
def tableClearThenCopy : Nat → runtimeCopyTable_t :=
  fun i =>
    if i = 0 then { targetAddr := 0x2000, sourceAddr := 0, size := 4 }
    else { targetAddr := 0x2000, sourceAddr := 0x8000, size := 4 }

/-- Two copies to the same target, from different sources, and a third record. -/
def tableTwoCopies : Nat → runtimeCopyTable_t :=
  fun i =>
    if i = 0 then { targetAddr := 0x1000, sourceAddr := 0x8000, size := 4 }
    else if i = 1 then { targetAddr := 0x1000, sourceAddr := 0x9000, size := 4 }
    else { targetAddr := 0x1000, sourceAddr := 0xA000, size := 4 }

/-- A clear, a padding record, a copy. -/
def tableClearPadCopy (pad : runtimeCopyTable_t) : Nat → runtimeCopyTable_t :=
  fun i =>
    if i = 0 then { targetAddr := 0x2000, sourceAddr := 0, size := 4 }
    else if i = 1 then pad
    else { targetAddr := 0x1000, sourceAddr := 0x8000, size := 4 }

/-- Two records, neither in the clear sub-range nor in the copy sub-range. -/
def imagePad : LinkerSymbols := image 24 0x200 0x200 0x200 0x200 0x3000 0x4000

/-- Number of passes through the loop at `again:` for a stack size that is a
multiple of 4: the test comes after the body, so a size of 0 wraps around. -/
def stackFillPasses (L : LinkerSymbols) : Nat :=
  if L.__ghssize_stack = 0 then 1073741824 else L.__ghssize_stack / 4

/-- Registers all zero and `ramPattern` in memory. -/
def resetMachine : Machine :=
  { r1 := 0, r10 := 0, r20 := 0, r21 := 0, r22 := 0, sp := 0, gp := 0, tp := 0, lp := 0,
    pc := 0, RBASE := 0, mem := ramPattern }

/-- A stack of 32 bytes at `[0x3000, 0x3020)`. -/
def imageSmallStack : LinkerSymbols := image 12 0x100 0x10C 0x10C 0x10C 0x3000 0x3020

/-- A stack of 2 bytes at `[0x3000, 0x3002)`. -/
def imageOddStack : LinkerSymbols := image 12 0x100 0x10C 0x10C 0x10C 0x3000 0x3002

/-- A stack that begins at `0x3001` and ends at `0x3003`. -/
def imageMisalignedStack : LinkerSymbols := image 12 0x100 0x10C 0x10C 0x10C 0x3001 0x3003

/-- State in which the loop at `again:` ends when the stack size is a multiple
of 4: `stackFillPasses` passes after the three `mov`. -/
def stackFilled (L : LinkerSymbols) (s : Machine) : Machine :=
  again_body^[stackFillPasses L]
    { s with r20 := L.__ghsbegin_stack, r21 := L.__ghssize_stack, r22 := 0xAAAAAAAA }

/-! ## The records the loop visits -/

/-- The loop of `SysStartup_InitMemory` with a log of the indices for which its
body runs, in the order in which it runs for them. -/
def SysStartup_InitMemory_logged (L : LinkerSymbols) (secinfo : Nat → runtimeCopyTable_t)
    (m : Memory) : Memory × List Nat :=
  let size := L.__ghssize_secinfo / sizeof_runtimeCopyTable_t
  forLoop size (fun i p => (SysStartup_InitMemory_body L secinfo i p.1, p.2 ++ [i])) size 0
    (m, [])

/-- The image `imageClear` with a table length of 13 bytes: one record and one
byte more. -/
def imageClear13 : LinkerSymbols := image 13 0x100 0x10C 0x10C 0x10C 0x3000 0x4000

/-- The image `imageClear` with a table length of 11 bytes: less than a record. -/
def imageClear11 : LinkerSymbols := image 11 0x100 0x10C 0x10C 0x10C 0x3000 0x4000

/-- A clear of 32 bytes at `0x2FF0`: it starts 16 bytes below a stack that
begins at `0x3000` and ends 16 bytes inside it. -/
def tableIntoStack : Nat → runtimeCopyTable_t :=
  fun _ => { targetAddr := 0x2FF0, sourceAddr := 0, size := 32 }

/-- The table `tableB` with another record at index 1. -/
def tableB1 : Nat → runtimeCopyTable_t :=
  fun i =>
    if i = 1 then { targetAddr := 0x5000, sourceAddr := 0x8000, size := 64 }
    else { targetAddr := 0x2000, sourceAddr := 0, size := 32 }

/-- A stack of no byte: `stackBegin = stackEnd = 0x3000`. -/
def imageEmptyStack : LinkerSymbols := image 12 0x100 0x10C 0x10C 0x10C 0x3000 0x3000

/-! ## The loop header with its signed counter -/

/-- The loop `for(int i=0;i<size;i++) body` with the counter as the `int` it is:
the comparison `i<size` converts `i` to `unsigned int`, and `i++` at `INT_MAX`
overflows, which leaves the behaviour undefined.  The result is `none` when the
counter overflows or when the loop has not ended within the number of tests
allowed by the first argument after `body`. -/
def forLoopInt {σ : Type} (size : Nat) (body : Nat → σ → σ) : Nat → Int → σ → Option σ
  | 0, _, _ => none
  | fuel + 1, i, s =>
    if (i % 4294967296).toNat < size then
      if i = 2147483647 then none
      else forLoopInt size body fuel (i + 1) (body i.toNat s)
    else some s

/-- One record in both sub-ranges, cleared and then copied onto itself from two
bytes further up. -/
def tableSelf : Nat → runtimeCopyTable_t :=
  fun _ => { targetAddr := 0x2000, sourceAddr := 0x2002, size := 4 }

/-! ## The table executor with its signed counters -/

theorem forLoop_range' {σ : Type} (size : Nat) (body : Nat → σ → σ) :
    ∀ (fuel i : Nat) (s : σ), size ≤ i + fuel →
      forLoop size body fuel i s
        = (List.range' i (size - i)).foldl (fun s i => body i s) s := by
  intro fuel
  induction fuel with
  | zero =>
    intro i s h
    have h0 : size - i = 0 := by omega
    simp [forLoop, h0]
  | succ fuel ih =>
    intro i s h
    by_cases hlt : i < size
    · have h1 : size - i = (size - (i + 1)) + 1 := by omega
      rw [forLoop, if_pos hlt, ih (i + 1) (body i s) (by omega), h1, List.range'_succ]
      rfl
    · have h0 : size - i = 0 := by omega
      rw [forLoop, if_neg hlt, h0]
      rfl

/-- The loop `for(int i=0;i<size;i++)` runs its body for `0, 1, ..., size-1`. -/
theorem forLoop_eq_foldl {σ : Type} (size : Nat) (body : Nat → σ → σ) (s : σ) :
    forLoop size body size 0 s = (List.range size).foldl (fun s i => body i s) s := by
  rw [forLoop_range' size body size 0 s (by omega), List.range_eq_range']
  rfl

/-- More iterations allowed than `size` change nothing: the loop has ended. -/
theorem forLoop_fuel {σ : Type} (size : Nat) (body : Nat → σ → σ) (s : σ) (extra : Nat) :
    forLoop size body (size + extra) 0 s = forLoop size body size 0 s := by
  rw [forLoop_range' size body (size + extra) 0 s (by omega),
    forLoop_range' size body size 0 s (by omega)]

theorem foldl_range_succ {σ : Type} (f : σ → Nat → σ) (s : σ) (n : Nat) :
    (List.range (n + 1)).foldl f s = f ((List.range n).foldl f s) n := by
  rw [List.range_succ, List.foldl_append]
  rfl

/-! ## Stores of bytes -/

theorem storeByte_byte (m : Memory) (addr value x : Nat) :
    (m.storeByte addr value).byte x
      = if x = addr % 4294967296 then value else m.byte x := rfl

theorem inRegion_succ (ptr n x : Nat) :
    inRegion ptr (n + 1) x ↔ inRegion ptr n x ∨ x = (ptr + n) % 4294967296 := by
  unfold inRegion
  constructor
  · rintro ⟨k, hk, rfl⟩
    by_cases h : k = n
    · right; rw [h]
    · left; exact ⟨k, by omega, rfl⟩
  · rintro (⟨k, hk, rfl⟩ | h)
    · exact ⟨k, by omega, rfl⟩
    · exact ⟨n, by omega, h⟩

theorem not_inRegion_zero (ptr x : Nat) : ¬ inRegion ptr 0 x := by
  rintro ⟨k, hk, _⟩
  omega

/-- Content after `SysStartup_Memset`: the value in the region, the old content
elsewhere. -/
theorem SysStartup_Memset_byte (m : Memory) (ptr : Nat) (value : Int) (size x : Nat) :
    (SysStartup_Memset m ptr value size).byte x
      = if inRegion ptr size x then (value % 256).toNat else m.byte x := by
  unfold SysStartup_Memset
  rw [forLoop_eq_foldl]
  induction size with
  | zero => simp [not_inRegion_zero]
  | succ n ih =>
    rw [foldl_range_succ, storeByte_byte]
    simp only [inRegion_succ]
    by_cases hx : x = (ptr + n) % 4294967296
    · simp [hx]
    · rw [if_neg hx, ih]
      simp [hx]

/-- Memory after the first `n` iterations of the loop of `SysStartup_Memcpy`. -/
theorem Memcpy_fold_frame (m : Memory) (target source n x : Nat)
    (hx : ¬ inRegion target n x) :
    ((List.range n).foldl
        (fun m i => m.storeByte (target + i) (m.loadByte (source + i))) m).byte x
      = m.byte x := by
  induction n with
  | zero => simp
  | succ n ih =>
    rw [foldl_range_succ]
    rw [inRegion_succ] at hx
    push_neg at hx
    rw [storeByte_byte, if_neg hx.2, ih hx.1]

/-- The function `SysStartup_Memcpy` leaves every byte outside the target region
as it was. -/
theorem SysStartup_Memcpy_frame (m : Memory) (target source size x : Nat)
    (hx : ¬ inRegion target size x) :
    (SysStartup_Memcpy m target source size).byte x = m.byte x := by
  unfold SysStartup_Memcpy
  rw [forLoop_eq_foldl]
  exact Memcpy_fold_frame m target source size x hx

theorem Memcpy_fold_copy (m : Memory) (target source size : Nat)
    (hdis : ∀ k, k < size → ¬ inRegion target size ((source + k) % 4294967296)) :
    ∀ n, n ≤ size → ∀ k, k < n →
      ((List.range n).foldl
          (fun m i => m.storeByte (target + i) (m.loadByte (source + i))) m).byte
            ((target + k) % 4294967296)
        = m.byte ((source + k) % 4294967296) := by
  intro n
  induction n with
  | zero => intro _ k hk; omega
  | succ n ih =>
    intro hn k hk
    rw [foldl_range_succ, storeByte_byte]
    have hsrc : ¬ inRegion target n ((source + n) % 4294967296) := by
      intro ⟨j, hj, e⟩
      exact hdis n (by omega) ⟨j, by omega, e⟩
    by_cases he : (target + k) % 4294967296 = (target + n) % 4294967296
    · rw [if_pos he, Memory.loadByte, Memcpy_fold_frame m target source n _ hsrc]
      congr 1
      omega
    · rw [if_neg he]
      have hkn : k ≠ n := by
        intro h; rw [h] at he; exact he rfl
      exact ih (by omega) k (by omega)

/-- When no byte of the source region is a byte of the target region,
`SysStartup_Memcpy` makes the target region a copy of the source region. -/
theorem SysStartup_Memcpy_copy (m : Memory) (target source size : Nat)
    (hdis : ∀ k, k < size → ¬ inRegion target size ((source + k) % 4294967296))
    (k : Nat) (hk : k < size) :
    (SysStartup_Memcpy m target source size).byte ((target + k) % 4294967296)
      = m.byte ((source + k) % 4294967296) := by
  unfold SysStartup_Memcpy
  rw [forLoop_eq_foldl]
  exact Memcpy_fold_copy m target source size hdis size (le_refl _) k hk

/-! ## The table executor -/

theorem SysStartup_InitMemory_eq_memAfter (L : LinkerSymbols)
    (secinfo : Nat → runtimeCopyTable_t) (m : Memory) :
    SysStartup_InitMemory L secinfo m = memAfter L secinfo m (entryCount L) := by
  unfold SysStartup_InitMemory memAfter entryCount
  exact forLoop_eq_foldl _ _ _

theorem memAfter_succ (L : LinkerSymbols) (secinfo : Nat → runtimeCopyTable_t) (m : Memory)
    (k : Nat) :
    memAfter L secinfo m (k + 1)
      = SysStartup_InitMemory_body L secinfo k (memAfter L secinfo m k) :=
  foldl_range_succ _ _ _

/-- The body of the loop, with its two tests read as the classification of the
record. -/
theorem SysStartup_InitMemory_body_eq (L : LinkerSymbols)
    (secinfo : Nat → runtimeCopyTable_t) (i : Nat) (m : Memory) :
    SysStartup_InitMemory_body L secinfo i m
      = if isCopyEntry L i then
          SysStartup_Memcpy
            (if clearApplied L secinfo i then
              SysStartup_Memset m (secinfo i).targetAddr 0 (secinfo i).size else m)
            (secinfo i).targetAddr (secinfo i).sourceAddr (secinfo i).size
        else
          (if clearApplied L secinfo i then
            SysStartup_Memset m (secinfo i).targetAddr 0 (secinfo i).size else m) := by
  have hstack : ((secinfo i).targetAddr < L.__ghsbegin_stack ∨
      (secinfo i).targetAddr > L.__ghsend_stack) ↔ ¬ inStack L (secinfo i).targetAddr := by
    unfold inStack; omega
  unfold SysStartup_InitMemory_body clearApplied isClearEntry isCopyEntry
  simp only [ge_iff_le, hstack]
  by_cases h1 : L.__ghsbinfo_clear ≤ recordAddr L i ∧ recordAddr L i < L.__ghseinfo_clear <;>
    by_cases h2 : ¬ inStack L (secinfo i).targetAddr <;>
    simp [h1, h2]

/-- An iteration that does not store to `x` leaves the byte at `x` as it was. -/
theorem SysStartup_InitMemory_body_frame (L : LinkerSymbols)
    (secinfo : Nat → runtimeCopyTable_t) (i : Nat) (m : Memory) (x : Nat)
    (h : ¬ writesAt L secinfo i x) :
    (SysStartup_InitMemory_body L secinfo i m).byte x = m.byte x := by
  rw [SysStartup_InitMemory_body_eq]
  unfold writesAt at h
  have hclear : (if clearApplied L secinfo i then
        SysStartup_Memset m (secinfo i).targetAddr 0 (secinfo i).size else m).byte x
      = m.byte x := by
    by_cases hc : clearApplied L secinfo i
    · rw [if_pos hc, SysStartup_Memset_byte, if_neg (fun hr => h ⟨Or.inl hc, hr⟩)]
    · rw [if_neg hc]
  by_cases hcp : isCopyEntry L i
  · rw [if_pos hcp, SysStartup_Memcpy_frame _ _ _ _ _ (fun hr => h ⟨Or.inr hcp, hr⟩), hclear]
  · rw [if_neg hcp, hclear]

/-- A byte that is zero, or that the clear of this iteration covers, is zero after
the iteration unless its copy stores to it. -/
theorem SysStartup_InitMemory_body_zero (L : LinkerSymbols)
    (secinfo : Nat → runtimeCopyTable_t) (i : Nat) (m : Memory) (x : Nat)
    (h0 : m.byte x = 0 ∨
      (clearApplied L secinfo i ∧ inRegion (secinfo i).targetAddr (secinfo i).size x))
    (hcopy : isCopyEntry L i → ¬ inRegion (secinfo i).targetAddr (secinfo i).size x) :
    (SysStartup_InitMemory_body L secinfo i m).byte x = 0 := by
  rw [SysStartup_InitMemory_body_eq]
  have hclear : (if clearApplied L secinfo i then
        SysStartup_Memset m (secinfo i).targetAddr 0 (secinfo i).size else m).byte x = 0 := by
    by_cases hc : clearApplied L secinfo i
    · rw [if_pos hc, SysStartup_Memset_byte]
      by_cases hr : inRegion (secinfo i).targetAddr (secinfo i).size x
      · rw [if_pos hr]; rfl
      · rw [if_neg hr]
        rcases h0 with h0 | h0
        · exact h0
        · exact absurd h0.2 hr
    · rw [if_neg hc]
      rcases h0 with h0 | h0
      · exact h0
      · exact absurd h0.1 hc
  by_cases hcp : isCopyEntry L i
  · rw [if_pos hcp, SysStartup_Memcpy_frame _ _ _ _ _ (hcopy hcp), hclear]
  · rw [if_neg hcp, hclear]

/-- Iterations `a, ..., a + d - 1` that do not store to `x` leave the byte at `x`
as it was after the first `a` iterations. -/
theorem memAfter_frame (L : LinkerSymbols) (secinfo : Nat → runtimeCopyTable_t) (m : Memory)
    (x a : Nat) :
    ∀ d, (∀ j, a ≤ j → j < a + d → ¬ writesAt L secinfo j x) →
      (memAfter L secinfo m (a + d)).byte x = (memAfter L secinfo m a).byte x := by
  intro d
  induction d with
  | zero => intro _; rfl
  | succ d ih =>
    intro h
    rw [← Nat.add_assoc, memAfter_succ,
      SysStartup_InitMemory_body_frame _ _ _ _ _ (h (a + d) (by omega) (by omega))]
    exact ih (fun j h1 h2 => h j h1 (by omega))

theorem memAfter_frame_le (L : LinkerSymbols) (secinfo : Nat → runtimeCopyTable_t)
    (m : Memory) (x a b : Nat) (hab : a ≤ b)
    (h : ∀ j, a ≤ j → j < b → ¬ writesAt L secinfo j x) :
    (memAfter L secinfo m b).byte x = (memAfter L secinfo m a).byte x := by
  obtain ⟨d, rfl⟩ := Nat.exists_eq_add_of_le hab
  exact memAfter_frame L secinfo m x a d h

theorem memAfter_zero_of (L : LinkerSymbols) (secinfo : Nat → runtimeCopyTable_t)
    (m : Memory) (x a : Nat) (h0 : (memAfter L secinfo m a).byte x = 0) :
    ∀ d, (∀ j, a ≤ j → j < a + d → isCopyEntry L j →
        ¬ inRegion (secinfo j).targetAddr (secinfo j).size x) →
      (memAfter L secinfo m (a + d)).byte x = 0 := by
  intro d
  induction d with
  | zero => intro _; exact h0
  | succ d ih =>
    intro h
    rw [← Nat.add_assoc, memAfter_succ]
    exact SysStartup_InitMemory_body_zero _ _ _ _ _
      (Or.inl (ih (fun j h1 h2 => h j h1 (by omega)))) (h (a + d) (by omega) (by omega))

/-! ## Clear entries -/

/-- C1, as stated, fails: in `imageClearCopy` with `tableClearThenCopy` record 0 is
a clear entry with its target outside the stack, and record 1 then copies to the
same target, so that the byte at `0x2000` is not zero after
`SysStartup_InitMemory`. -/
theorem SysStartup_InitMemory_clear_overwritten :
    ¬ (∀ (L : LinkerSymbols) (secinfo : Nat → runtimeCopyTable_t) (m : Memory) (i : Nat),
        i < entryCount L → isClearEntry L i → ¬ inStack L (secinfo i).targetAddr →
        ∀ k, k < (secinfo i).size →
          (SysStartup_InitMemory L secinfo m).byte
            (((secinfo i).targetAddr + k) % 4294967296) = 0) := by
  intro h
  have h0 := h imageClearCopy tableClearThenCopy ramPattern 0 (by decide) (by decide)
    (by decide) 0 (by decide)
  revert h0
  decide

/-- C1, amended: for a clear entry `i` of the table whose target is outside
`[stackBegin, stackEnd]`, every byte of `[targetAddr, targetAddr + size)` that no
copy of iteration `i` or of a later iteration stores to is zero after
`SysStartup_InitMemory`. -/
theorem SysStartup_InitMemory_clear_zero (L : LinkerSymbols)
    (secinfo : Nat → runtimeCopyTable_t) (m : Memory) (i k : Nat)
    (hi : i < entryCount L) (hclear : isClearEntry L i)
    (hstack : ¬ inStack L (secinfo i).targetAddr) (hk : k < (secinfo i).size)
    (hcopy : ∀ j, j < entryCount L → i ≤ j → isCopyEntry L j →
      ¬ inRegion (secinfo j).targetAddr (secinfo j).size
          (((secinfo i).targetAddr + k) % 4294967296)) :
    (SysStartup_InitMemory L secinfo m).byte (((secinfo i).targetAddr + k) % 4294967296)
      = 0 := by
  rw [SysStartup_InitMemory_eq_memAfter]
  have hstep : (memAfter L secinfo m (i + 1)).byte
      (((secinfo i).targetAddr + k) % 4294967296) = 0 := by
    rw [memAfter_succ]
    exact SysStartup_InitMemory_body_zero _ _ _ _ _
      (Or.inr ⟨⟨hclear, hstack⟩, k, hk, rfl⟩) (hcopy i hi (le_refl i))
  obtain ⟨d, hd⟩ := Nat.exists_eq_add_of_le (show i + 1 ≤ entryCount L from hi)
  rw [hd]
  exact memAfter_zero_of L secinfo m _ (i + 1) hstep d
    (fun j h1 h2 => hcopy j (by omega) (by omega))

/-- Scenario B: one clear entry `{target=0x2000, size=32}`, stack at
`[0x3000,0x4000)`; the first and the last byte of `[0x2000,0x2020)` are zero. -/
theorem SysStartup_InitMemory_clear_zero_witness :
    (SysStartup_InitMemory imageClear tableB ramPattern).byte 0x2000 = 0 ∧
    (SysStartup_InitMemory imageClear tableB ramPattern).byte 0x201F = 0 :=
  ⟨SysStartup_InitMemory_clear_zero imageClear tableB ramPattern 0 0
      (by decide) (by decide) (by decide) (by decide) (by decide),
    SysStartup_InitMemory_clear_zero imageClear tableB ramPattern 0 31
      (by decide) (by decide) (by decide) (by decide) (by decide)⟩

/-! ## Copy entries -/

/-- C2, as stated, fails: in `imageCopyCopyPad` with `tableTwoCopies` records 0 and
1 are copy entries with the same target; after `SysStartup_InitMemory` the byte at
the target of record 0 is the one record 1 copied, which is neither the byte that
was at the source of record 0 nor the byte that is there afterwards. -/
theorem SysStartup_InitMemory_copy_overwritten :
    ¬ (∀ (L : LinkerSymbols) (secinfo : Nat → runtimeCopyTable_t) (m : Memory) (i : Nat),
        i < entryCount L → isCopyEntry L i →
        ∀ k, k < (secinfo i).size →
          (SysStartup_InitMemory L secinfo m).byte
              (((secinfo i).targetAddr + k) % 4294967296)
            = m.byte (((secinfo i).sourceAddr + k) % 4294967296)) ∧
    (SysStartup_InitMemory imageCopyCopyPad tableTwoCopies ramPattern).byte 0x1000
      ≠ (SysStartup_InitMemory imageCopyCopyPad tableTwoCopies ramPattern).byte 0x8000 := by
  constructor
  · intro h
    have h0 := h imageCopyCopyPad tableTwoCopies ramPattern 0 (by decide) (by decide)
      0 (by decide)
    revert h0
    decide
  · decide

/-- C2, amended: for a copy entry `i` of the table, if no iteration up to and
including `i` stores to a byte of the source region of `i`, and no later
iteration stores to a byte of its target region, then after
`SysStartup_InitMemory` the `size` bytes at `targetAddr` are the bytes that were
at `sourceAddr` before. -/
theorem SysStartup_InitMemory_copy (L : LinkerSymbols)
    (secinfo : Nat → runtimeCopyTable_t) (m : Memory) (i : Nat)
    (hi : i < entryCount L) (hcopy : isCopyEntry L i)
    (hsrc : ∀ j, j < i + 1 → ∀ k, k < (secinfo i).size →
      ¬ writesAt L secinfo j (((secinfo i).sourceAddr + k) % 4294967296))
    (htgt : ∀ j, j < entryCount L → i < j → ∀ k, k < (secinfo i).size →
      ¬ writesAt L secinfo j (((secinfo i).targetAddr + k) % 4294967296))
    (k : Nat) (hk : k < (secinfo i).size) :
    (SysStartup_InitMemory L secinfo m).byte (((secinfo i).targetAddr + k) % 4294967296)
      = m.byte (((secinfo i).sourceAddr + k) % 4294967296) := by
  rw [SysStartup_InitMemory_eq_memAfter,
    memAfter_frame_le L secinfo m _ (i + 1) (entryCount L) hi
      (fun j h1 h2 => htgt j h2 (by omega) k hk),
    memAfter_succ, SysStartup_InitMemory_body_eq, if_pos hcopy]
  have hdis : ∀ k, k < (secinfo i).size →
      ¬ inRegion (secinfo i).targetAddr (secinfo i).size
        (((secinfo i).sourceAddr + k) % 4294967296) :=
    fun k hk hr => hsrc i (by omega) k hk ⟨Or.inr hcopy, hr⟩
  rw [SysStartup_Memcpy_copy _ _ _ _ hdis k hk]
  have hbefore : (memAfter L secinfo m i).byte (((secinfo i).sourceAddr + k) % 4294967296)
      = m.byte (((secinfo i).sourceAddr + k) % 4294967296) := by
    have := memAfter_frame_le L secinfo m (((secinfo i).sourceAddr + k) % 4294967296) 0 i
      (Nat.zero_le i) (fun j _ h2 => hsrc j (by omega) k hk)
    rw [this]
    rfl
  by_cases hc : clearApplied L secinfo i
  · rw [if_pos hc, SysStartup_Memset_byte, if_neg (hdis k hk), hbefore]
  · rw [if_neg hc, hbefore]

/-- Scenario A: one copy entry `{target=0x1000, source=0x8000, size=16}`; the
first and the last of the 16 bytes at `0x1000` are the bytes that were at
`0x8000` and at `0x800F`. -/
theorem SysStartup_InitMemory_copy_witness :
    (SysStartup_InitMemory imageCopy tableA ramPattern).byte 0x1000
      = ramPattern.byte 0x8000 ∧
    (SysStartup_InitMemory imageCopy tableA ramPattern).byte 0x100F
      = ramPattern.byte 0x800F :=
  ⟨SysStartup_InitMemory_copy imageCopy tableA ramPattern 0
      (by decide) (by decide) (by decide) (by decide) 0 (by decide),
    SysStartup_InitMemory_copy imageCopy tableA ramPattern 0
      (by decide) (by decide) (by decide) (by decide) 15 (by decide)⟩

/-! ## The stack exclusion -/

/-- C3, as stated, fails: in `imageBoth` the record lies in the clear sub-range
and in the copy sub-range; its target is `stackBegin`, the clear is skipped, and
the copy of the same iteration stores to the stack. -/
theorem SysStartup_InitMemory_body_stack_copied :
    ¬ (∀ (L : LinkerSymbols) (secinfo : Nat → runtimeCopyTable_t) (m : Memory) (i : Nat),
        isClearEntry L i → inStack L (secinfo i).targetAddr →
        SysStartup_InitMemory_body L secinfo i m = m) := by
  intro h
  have h0 := congrArg (fun m => m.byte 0x3000)
    (h imageBoth tableC ramPattern 0 (by decide) (by decide))
  revert h0
  decide

/-- C3, amended: for a clear entry that is not also a copy entry and whose target
lies in the closed range `[stackBegin, stackEnd]`, the iteration that processes
it stores nothing, whatever its size: the memory, store count included, is the
one before. -/
theorem SysStartup_InitMemory_body_stack_skipped (L : LinkerSymbols)
    (secinfo : Nat → runtimeCopyTable_t) (m : Memory) (i : Nat)
    (_hclear : isClearEntry L i) (hnocopy : ¬ isCopyEntry L i)
    (hstack : inStack L (secinfo i).targetAddr) :
    SysStartup_InitMemory_body L secinfo i m = m := by
  rw [SysStartup_InitMemory_body_eq, if_neg hnocopy, if_neg (fun hc => hc.2 hstack)]

/-- Scenario C: a clear entry with `target == stackBegin` and 32 bytes; the
iteration leaves the memory as it was. -/
theorem SysStartup_InitMemory_body_stack_skipped_witness :
    inStack imageClear (tableC 0).targetAddr ∧
    SysStartup_InitMemory_body imageClear tableC 0 ramPattern = ramPattern :=
  ⟨by decide,
    SysStartup_InitMemory_body_stack_skipped imageClear tableC ramPattern 0
      (by decide) (by decide) (by decide)⟩

/-! ## Inert entries and the order of processing -/

theorem SysStartup_InitMemory_body_inert (L : LinkerSymbols)
    (secinfo : Nat → runtimeCopyTable_t) (m : Memory) (i : Nat)
    (h1 : ¬ isClearEntry L i) (h2 : ¬ isCopyEntry L i) :
    SysStartup_InitMemory_body L secinfo i m = m := by
  rw [SysStartup_InitMemory_body_eq, if_neg h2, if_neg (fun hc => h1 hc.1)]

theorem SysStartup_InitMemory_body_congr (L : LinkerSymbols)
    (secinfo secinfo' : Nat → runtimeCopyTable_t) (m : Memory) (i : Nat)
    (h : (isClearEntry L i ∨ isCopyEntry L i) → secinfo i = secinfo' i) :
    SysStartup_InitMemory_body L secinfo i m = SysStartup_InitMemory_body L secinfo' i m := by
  by_cases hc : isClearEntry L i ∨ isCopyEntry L i
  · unfold SysStartup_InitMemory_body
    rw [h hc]
  · push_neg at hc
    rw [SysStartup_InitMemory_body_inert L secinfo m i hc.1 hc.2,
      SysStartup_InitMemory_body_inert L secinfo' m i hc.1 hc.2]

/-- C6: records that lie neither in the clear sub-range nor in the copy sub-range
are inert.  Two tables that agree on every record lying in one of the sub-ranges
give the same memory (store count included), whatever the fields of the other
records; and when no record lies in a sub-range the memory is left as it was. -/
theorem SysStartup_InitMemory_inert (L : LinkerSymbols)
    (secinfo secinfo' : Nat → runtimeCopyTable_t) (m : Memory) :
    ((∀ i, i < entryCount L → (isClearEntry L i ∨ isCopyEntry L i) →
        secinfo i = secinfo' i) →
      SysStartup_InitMemory L secinfo m = SysStartup_InitMemory L secinfo' m) ∧
    ((∀ i, i < entryCount L → ¬ isClearEntry L i ∧ ¬ isCopyEntry L i) →
      SysStartup_InitMemory L secinfo m = m) := by
  constructor
  · intro h
    rw [SysStartup_InitMemory_eq_memAfter, SysStartup_InitMemory_eq_memAfter]
    have key : ∀ k, k ≤ entryCount L → memAfter L secinfo m k = memAfter L secinfo' m k := by
      intro k
      induction k with
      | zero => intro _; rfl
      | succ k ih =>
        intro hk
        rw [memAfter_succ, memAfter_succ, ih (by omega)]
        exact SysStartup_InitMemory_body_congr L secinfo secinfo' _ k (h k (by omega))
    exact key _ (le_refl _)
  · intro h
    rw [SysStartup_InitMemory_eq_memAfter]
    have key : ∀ k, k ≤ entryCount L → memAfter L secinfo m k = m := by
      intro k
      induction k with
      | zero => intro _; rfl
      | succ k ih =>
        intro hk
        rw [memAfter_succ, ih (by omega)]
        exact SysStartup_InitMemory_body_inert L secinfo m k (h k (by omega)).1
          (h k (by omega)).2
    exact key _ (le_refl _)

/-- In `imageClearPadCopy` the fields of the padding record do not matter; in
`imagePad`, where no record is classified, the memory stays as it was. -/
theorem SysStartup_InitMemory_inert_witness :
    SysStartup_InitMemory imageClearPadCopy
        (tableClearPadCopy { targetAddr := 0x3000, sourceAddr := 0x8000, size := 64 })
        ramPattern
      = SysStartup_InitMemory imageClearPadCopy
        (tableClearPadCopy { targetAddr := 0, sourceAddr := 0, size := 0 }) ramPattern ∧
    SysStartup_InitMemory imagePad tableTwoCopies ramPattern = ramPattern :=
  ⟨(SysStartup_InitMemory_inert imageClearPadCopy _ _ ramPattern).1 (by decide),
    (SysStartup_InitMemory_inert imagePad tableTwoCopies tableTwoCopies ramPattern).2
      (by decide)⟩

/-- C7: `SysStartup_InitMemory` processes the records in the order of their
storage: its result is the left fold of the body of its loop over the indices
`0, 1, ..., n-1`; and at an address that no iteration after `j` stores to, the
final byte is the one present after iteration `j`, so that of two applied
entries storing to the same address the one with the higher index decides. -/
theorem SysStartup_InitMemory_order (L : LinkerSymbols)
    (secinfo : Nat → runtimeCopyTable_t) (m : Memory) :
    SysStartup_InitMemory L secinfo m
      = (List.range (L.__ghssize_secinfo / 12)).foldl
          (fun m i => SysStartup_InitMemory_body L secinfo i m) m ∧
    ∀ j x, j < entryCount L →
      (∀ k, k < entryCount L → j < k → ¬ writesAt L secinfo k x) →
      (SysStartup_InitMemory L secinfo m).byte x
        = (SysStartup_InitMemory_body L secinfo j (memAfter L secinfo m j)).byte x := by
  constructor
  · exact SysStartup_InitMemory_eq_memAfter L secinfo m
  · intro j x hj h
    rw [SysStartup_InitMemory_eq_memAfter, ← memAfter_succ]
    exact memAfter_frame_le L secinfo m x (j + 1) (entryCount L) hj
      (fun k h1 h2 => h k h2 (by omega))

/-- In `imageCopyCopyPad` records 0 and 1 both copy to `0x1000`; the final byte
there is the one record 1 stored, the byte that was at `0x9000`. -/
theorem SysStartup_InitMemory_order_witness :
    writesAt imageCopyCopyPad tableTwoCopies 0 0x1000 ∧
    writesAt imageCopyCopyPad tableTwoCopies 1 0x1000 ∧
    (SysStartup_InitMemory imageCopyCopyPad tableTwoCopies ramPattern).byte 0x1000
      = (SysStartup_InitMemory_body imageCopyCopyPad tableTwoCopies 1
          (memAfter imageCopyCopyPad tableTwoCopies ramPattern 1)).byte 0x1000 ∧
    (SysStartup_InitMemory imageCopyCopyPad tableTwoCopies ramPattern).byte 0x1000
      = ramPattern.byte 0x9000 :=
  ⟨by decide, by decide,
    (SysStartup_InitMemory_order imageCopyCopyPad tableTwoCopies ramPattern).2 1 0x1000
      (by decide) (by decide),
    by decide⟩

/-! ## The loop that fills the stack -/

theorem inRegion_add (p n k x : Nat) :
    inRegion p (n + k) x ↔ inRegion p n x ∨ inRegion (p + n) k x := by
  unfold inRegion
  constructor
  · rintro ⟨j, hj, h⟩
    by_cases hjn : j < n
    · exact Or.inl ⟨j, hjn, h⟩
    · exact Or.inr ⟨j - n, by omega, by rw [h]; congr 1; omega⟩
  · rintro (⟨j, hj, h⟩ | ⟨j, hj, h⟩)
    · exact ⟨j, by omega, h⟩
    · exact ⟨n + j, by omega, by rw [h]; congr 1; omega⟩

theorem inRegion_mod (p n x : Nat) :
    inRegion (p % 4294967296) n x ↔ inRegion p n x := by
  unfold inRegion
  constructor <;> rintro ⟨k, hk, h⟩ <;> exact ⟨k, hk, by omega⟩

theorem inRegion_four (a x : Nat) :
    inRegion a 4 x ↔ (x = a % 4294967296 ∨ x = (a + 1) % 4294967296 ∨
      x = (a + 2) % 4294967296 ∨ x = (a + 3) % 4294967296) := by
  unfold inRegion
  constructor
  · rintro ⟨k, hk, h⟩
    interval_cases k
    · exact Or.inl h
    · exact Or.inr (Or.inl h)
    · exact Or.inr (Or.inr (Or.inl h))
    · exact Or.inr (Or.inr (Or.inr h))
  · rintro (h | h | h | h)
    · exact ⟨0, by omega, h⟩
    · exact ⟨1, by omega, h⟩
    · exact ⟨2, by omega, h⟩
    · exact ⟨3, by omega, h⟩

/-- A store of the word `0xAAAAAAAA` puts `0xAA` in the four bytes at the address. -/
theorem storeWord_sentinel_byte (m : Memory) (a x : Nat) :
    (m.storeWord a 2863311530).byte x = if inRegion a 4 x then 170 else m.byte x := by
  simp only [Memory.storeWord, inRegion_four]
  by_cases h0 : x = a % 4294967296
  · simp [h0]
  · by_cases h1 : x = (a + 1) % 4294967296
    · simp [h0, h1]
    · by_cases h2 : x = (a + 2) % 4294967296
      · simp [h0, h1, h2]
      · by_cases h3 : x = (a + 3) % 4294967296
        · simp [h0, h1, h2, h3]
        · simp [h0, h1, h2, h3]

theorem again_succ (fuel : Nat) (s : Machine) :
    again (fuel + 1) s
      = if (again_body s).r21 ≠ 0 then again fuel (again_body s) else some (again_body s) :=
  rfl

/-- A size that is not a multiple of 4 never reaches 0: the loop does not end. -/
theorem again_none (fuel : Nat) :
    ∀ s : Machine, s.r21 % 4 ≠ 0 → again fuel s = none := by
  induction fuel with
  | zero => intro s _; rfl
  | succ fuel ih =>
    intro s h
    have hr : (again_body s).r21 = (s.r21 + 4294967292) % 4294967296 := rfl
    have h4 : (again_body s).r21 % 4 ≠ 0 := by omega
    have h0 : (again_body s).r21 ≠ 0 := by omega
    rw [again_succ, if_pos h0]
    exact ih _ h4

/-- A loop that has ended within `fuel` passes gives the same state with more. -/
theorem again_mono (fuel : Nat) :
    ∀ (s s' : Machine) (k : Nat), again fuel s = some s' → again (fuel + k) s = some s' := by
  induction fuel with
  | zero => intro s s' k h; exact absurd h (by simp [again])
  | succ fuel ih =>
    intro s s' k h
    have e : fuel + 1 + k = (fuel + k) + 1 := by omega
    rw [e, again_succ]
    rw [again_succ] at h
    by_cases h0 : (again_body s).r21 ≠ 0
    · rw [if_pos h0] at h ⊢
      exact ih _ _ k h
    · rw [if_neg h0] at h ⊢
      exact h

/-- With `r21 = 4 * (n + 1)` taken in 32 bits the loop ends after `n + 1` passes. -/
theorem again_passes (n : Nat) :
    ∀ (s : Machine) (extra : Nat), n + 1 ≤ 1073741824 →
      s.r21 = (4 * (n + 1)) % 4294967296 →
      again (n + 1 + extra) s = some (again_body^[n + 1] s) := by
  induction n with
  | zero =>
    intro s extra _ h
    have hr : (again_body s).r21 = (s.r21 + 4294967292) % 4294967296 := rfl
    have h0 : ¬ (again_body s).r21 ≠ 0 := by omega
    have e : 0 + 1 + extra = extra + 1 := by omega
    rw [e, again_succ, if_neg h0]
    rfl
  | succ n ih =>
    intro s extra hn h
    have hr : (again_body s).r21 = (s.r21 + 4294967292) % 4294967296 := rfl
    have h1 : (again_body s).r21 = (4 * (n + 1)) % 4294967296 := by omega
    have h0 : (again_body s).r21 ≠ 0 := by omega
    have e : n + 1 + 1 + extra = (n + 1 + extra) + 1 := by omega
    rw [e, again_succ, if_pos h0, ih (again_body s) extra (by omega) h1]
    rfl

/-- State after `n` passes through the body of the loop, the word in `r22`
being the sentinel. -/
theorem again_body_iterate (s : Machine) (hs : s.r22 = 2863311530) (n : Nat) :
    (again_body^[n] s).r22 = 2863311530 ∧
    (again_body^[n] s).r20 % 4294967296 = (s.r20 + 4 * n) % 4294967296 ∧
    (again_body^[n] s).mem.stores = s.mem.stores + n ∧
    (∀ x, (again_body^[n] s).mem.byte x
      = if inRegion s.r20 (4 * n) x then 170 else s.mem.byte x) := by
  induction n with
  | zero =>
    refine ⟨hs, rfl, rfl, fun x => ?_⟩
    rw [if_neg (not_inRegion_zero _ _)]
    rfl
  | succ n ih =>
    obtain ⟨h22, h20, hst, hmem⟩ := ih
    rw [Function.iterate_succ_apply']
    have b20 : (again_body (again_body^[n] s)).r20
        = ((again_body^[n] s).r20 + 4) % 4294967296 := rfl
    have bmem : (again_body (again_body^[n] s)).mem
        = (again_body^[n] s).mem.storeWord (again_body^[n] s).r20 (again_body^[n] s).r22 := rfl
    refine ⟨h22, by omega, ?_, fun x => ?_⟩
    · rw [bmem]
      show (again_body^[n] s).mem.stores + 1 = s.mem.stores + (n + 1)
      omega
    · rw [bmem, h22, storeWord_sentinel_byte, hmem x]
      have hreg : inRegion (again_body^[n] s).r20 4 x ↔ inRegion (s.r20 + 4 * n) 4 x := by
        rw [← inRegion_mod, h20, inRegion_mod]
      have hsplit : inRegion s.r20 (4 * (n + 1)) x
          ↔ inRegion s.r20 (4 * n) x ∨ inRegion (s.r20 + 4 * n) 4 x := by
        rw [show 4 * (n + 1) = 4 * n + 4 by omega, inRegion_add]
      by_cases ha : inRegion (s.r20 + 4 * n) 4 x
      · rw [if_pos (hreg.2 ha), if_pos (hsplit.2 (Or.inr ha))]
      · rw [if_neg (fun h => ha (hreg.1 h))]
        by_cases hb : inRegion s.r20 (4 * n) x
        · rw [if_pos hb, if_pos (hsplit.2 (Or.inl hb))]
        · rw [if_neg hb, if_neg (fun h => (hsplit.1 h).elim hb ha)]

theorem SysStartup_CallMainFunction_InitStack_run (L : LinkerSymbols) (s : Machine)
    (hsz : L.__ghssize_stack < 4294967296) (h4 : L.__ghssize_stack % 4 = 0) (extra : Nat) :
    SysStartup_CallMainFunction_InitStack L (stackFillPasses L + extra) s
      = some (stackFilled L s) := by
  have hp : 1 ≤ stackFillPasses L ∧ stackFillPasses L ≤ 1073741824 ∧
      L.__ghssize_stack = (4 * stackFillPasses L) % 4294967296 := by
    unfold stackFillPasses
    split <;> omega
  obtain ⟨n, hn⟩ := Nat.exists_eq_add_of_le hp.1
  have hn' : stackFillPasses L = n + 1 := by omega
  unfold stackFilled SysStartup_CallMainFunction_InitStack
  rw [hn']
  exact again_passes n _ extra (by omega) (by rw [← hn']; exact hp.2.2)

theorem SysStartup_CallMainFunction_InitStack_some (L : LinkerSymbols) (s s' : Machine)
    (fuel : Nat) (hsz : L.__ghssize_stack < 4294967296)
    (h : SysStartup_CallMainFunction_InitStack L fuel s = some s') :
    L.__ghssize_stack % 4 = 0 ∧ s' = stackFilled L s := by
  have h4 : L.__ghssize_stack % 4 = 0 := by
    by_contra hne
    have hnone : SysStartup_CallMainFunction_InitStack L fuel s = none :=
      again_none fuel _ hne
    rw [hnone] at h
    exact absurd h (by simp)
  refine ⟨h4, ?_⟩
  have h1 := again_mono fuel _ _ (stackFillPasses L) h
  have h2 := SysStartup_CallMainFunction_InitStack_run L s hsz h4 fuel
  unfold SysStartup_CallMainFunction_InitStack at h2
  rw [Nat.add_comm, h2] at h1
  exact (Option.some.inj h1).symm

theorem stackFilled_stores (L : LinkerSymbols) (s : Machine) :
    (stackFilled L s).mem.stores = s.mem.stores + stackFillPasses L :=
  (again_body_iterate _ rfl (stackFillPasses L)).2.2.1

/-- Every byte of `[stackBegin, stackEnd)` holds `0xAA` in `stackFilled`. -/
theorem stackFilled_byte (L : LinkerSymbols) (s : Machine)
    (hle : L.__ghsbegin_stack ≤ L.__ghsend_stack) (hend : L.__ghsend_stack < 4294967296)
    (hsize : L.__ghssize_stack = L.__ghsend_stack - L.__ghsbegin_stack)
    (h4 : L.__ghssize_stack % 4 = 0)
    (x : Nat) (h1 : L.__ghsbegin_stack ≤ x) (h2 : x < L.__ghsend_stack) :
    (stackFilled L s).mem.byte x = 170 := by
  have hmem := (again_body_iterate
    { s with r20 := L.__ghsbegin_stack, r21 := L.__ghssize_stack, r22 := 0xAAAAAAAA }
    rfl (stackFillPasses L)).2.2.2 x
  have hin : inRegion L.__ghsbegin_stack (4 * stackFillPasses L) x := by
    refine ⟨x - L.__ghsbegin_stack, ?_, by omega⟩
    unfold stackFillPasses
    split <;> omega
  unfold stackFilled
  rw [hmem]
  exact if_pos hin

/-- Every word of `[stackBegin, stackEnd)` is `0xAAAAAAAA` in `stackFilled`. -/
theorem stackFilled_word (L : LinkerSymbols) (s : Machine)
    (hle : L.__ghsbegin_stack ≤ L.__ghsend_stack) (hend : L.__ghsend_stack < 4294967296)
    (hsize : L.__ghssize_stack = L.__ghsend_stack - L.__ghsbegin_stack)
    (h4 : L.__ghssize_stack % 4 = 0)
    (a : Nat) (h1 : L.__ghsbegin_stack ≤ a) (h2 : a + 4 ≤ L.__ghsend_stack) :
    (stackFilled L s).mem.loadWord a = 2863311530 := by
  have e0 : a % 4294967296 = a := Nat.mod_eq_of_lt (by omega)
  have e1 : (a + 1) % 4294967296 = a + 1 := Nat.mod_eq_of_lt (by omega)
  have e2 : (a + 2) % 4294967296 = a + 2 := Nat.mod_eq_of_lt (by omega)
  have e3 : (a + 3) % 4294967296 = a + 3 := Nat.mod_eq_of_lt (by omega)
  unfold Memory.loadWord Memory.loadByte
  rw [e0, e1, e2, e3,
    stackFilled_byte L s hle hend hsize h4 a (by omega) (by omega),
    stackFilled_byte L s hle hend hsize h4 (a + 1) (by omega) (by omega),
    stackFilled_byte L s hle hend hsize h4 (a + 2) (by omega) (by omega),
    stackFilled_byte L s hle hend hsize h4 (a + 3) (by omega) (by omega)]

/-! ## The stack guard initializer -/

/-- C4, as stated, fails: with a stack of 2 bytes (`imageOddStack`) the loop at
`again:` never ends, whatever the number of passes allowed, so there is no state
after it. -/
theorem SysStartup_CallMainFunction_InitStack_never_ends :
    ¬ (∀ (L : LinkerSymbols) (s : Machine),
        L.__ghsbegin_stack ≤ L.__ghsend_stack → L.__ghsend_stack < 4294967296 →
        L.__ghssize_stack = L.__ghsend_stack - L.__ghsbegin_stack →
        ∃ fuel s', SysStartup_CallMainFunction_InitStack L fuel s = some s' ∧
          ∀ x, L.__ghsbegin_stack ≤ x → x < L.__ghsend_stack → s'.mem.byte x = 0xAA) := by
  intro h
  obtain ⟨fuel, s', hs', _⟩ := h imageOddStack resetMachine (by decide) (by decide) (by decide)
  have hnone : SysStartup_CallMainFunction_InitStack imageOddStack fuel resetMachine = none :=
    again_none fuel _ (by decide)
  rw [hnone] at hs'
  exact absurd hs' (by simp)

/-- C4, amended: when the stack size `stackEnd - stackBegin` is a multiple of 4,
the loop that fills the stack ends, from any memory, and after it every byte of
`[stackBegin, stackEnd)` is `0xAA` and every 32-bit word in it is `0xAAAAAAAA`. -/
theorem SysStartup_CallMainFunction_InitStack_fills (L : LinkerSymbols) (s : Machine)
    (hle : L.__ghsbegin_stack ≤ L.__ghsend_stack) (hend : L.__ghsend_stack < 4294967296)
    (hsize : L.__ghssize_stack = L.__ghsend_stack - L.__ghsbegin_stack)
    (h4 : L.__ghssize_stack % 4 = 0) :
    ∃ s', (∃ n, ∀ fuel, n ≤ fuel →
        SysStartup_CallMainFunction_InitStack L fuel s = some s') ∧
      (∀ x, L.__ghsbegin_stack ≤ x → x < L.__ghsend_stack → s'.mem.byte x = 0xAA) ∧
      (∀ a, L.__ghsbegin_stack ≤ a → a + 4 ≤ L.__ghsend_stack →
        s'.mem.loadWord a = 0xAAAAAAAA) := by
  refine ⟨stackFilled L s, ⟨stackFillPasses L, fun fuel hf => ?_⟩,
    stackFilled_byte L s hle hend hsize h4, stackFilled_word L s hle hend hsize h4⟩
  obtain ⟨extra, rfl⟩ := Nat.exists_eq_add_of_le hf
  exact SysStartup_CallMainFunction_InitStack_run L s (by omega) h4 extra

/-- A stack of 32 bytes at `[0x3000, 0x3020)`: the loop ends and the stack holds
the sentinel. -/
theorem SysStartup_CallMainFunction_InitStack_fills_witness :
    imageSmallStack.__ghssize_stack % 4 = 0 ∧
    ∃ s', (∃ n, ∀ fuel, n ≤ fuel →
        SysStartup_CallMainFunction_InitStack imageSmallStack fuel resetMachine = some s') ∧
      (∀ x, 0x3000 ≤ x → x < 0x3020 → s'.mem.byte x = 0xAA) ∧
      (∀ a, 0x3000 ≤ a → a + 4 ≤ 0x3020 → s'.mem.loadWord a = 0xAAAAAAAA) :=
  ⟨by decide,
    SysStartup_CallMainFunction_InitStack_fills imageSmallStack resetMachine
      (by decide) (by decide) (by decide) (by decide)⟩

/-! ## The stack pointer -/

/-- The instruction `and r1, sp` with `r1 = -4` clears the two low bits. -/
theorem and_minus_four (x : Nat) (hx : x < 4294967296) : x &&& 4294967292 = x - x % 4 := by
  apply Nat.eq_of_testBit_eq
  intro i
  have hc : (4294967292 : Nat) = (2 ^ 30 - 1) <<< 2 := by decide
  have hr : x - x % 4 = (x >>> 2) <<< 2 := by
    rw [Nat.shiftLeft_eq, Nat.shiftRight_eq_div_pow]
    omega
  rw [Nat.testBit_and, hc, hr, Nat.testBit_shiftLeft, Nat.testBit_shiftLeft,
    Nat.testBit_two_pow_sub_one, Nat.testBit_shiftRight]
  by_cases h2 : 2 ≤ i
  · have e : 2 + (i - 2) = i := by omega
    rw [e]
    by_cases h32 : i - 2 < 30
    · simp [h2, h32]
    · have hbit : x.testBit i = false := by
        apply Nat.testBit_eq_false_of_lt
        calc x < 2 ^ 32 := hx
          _ ≤ 2 ^ i := Nat.pow_le_pow_right (by decide) (by omega)
      simp [hbit]
  · simp [h2]

theorem SysStartup_RuntimeEnvironment_sp (L : LinkerSymbols) (s : Machine) :
    (SysStartup_RuntimeEnvironment L s).sp = L.__ghsend_stack &&& 4294967292 := rfl

theorem SysStartup_CallMainFunction_some (L : LinkerSymbols) (s s' : Machine) (fuel : Nat)
    (h : SysStartup_CallMainFunction L fuel s = some s') :
    ∃ t, SysStartup_CallMainFunction_InitStack L fuel s = some t ∧
      s'.pc = L._main ∧ s'.lp = L._SysStartup_UnexpectedExitFromMain ∧
      s'.sp = L.__ghsend_stack &&& 4294967292 ∧ s'.mem = t.mem := by
  unfold SysStartup_CallMainFunction at h
  cases ht : SysStartup_CallMainFunction_InitStack L fuel s with
  | none => rw [ht] at h; exact absurd h (by simp)
  | some t =>
    rw [ht] at h
    have e := Option.some.inj h
    subst e
    exact ⟨t, rfl, rfl, rfl, rfl, rfl⟩

/-- When the stack size is a multiple of 4, `SysStartup_CallMainFunction` reaches
its `jmp r1`. -/
theorem SysStartup_CallMainFunction_ends (L : LinkerSymbols) (s : Machine)
    (hsz : L.__ghssize_stack < 4294967296) (h4 : L.__ghssize_stack % 4 = 0) :
    ∃ n, ∀ fuel, n ≤ fuel → ∃ s', SysStartup_CallMainFunction L fuel s = some s' := by
  refine ⟨stackFillPasses L, fun fuel hf => ?_⟩
  obtain ⟨extra, rfl⟩ := Nat.exists_eq_add_of_le hf
  unfold SysStartup_CallMainFunction
  rw [SysStartup_CallMainFunction_InitStack_run L s hsz h4 extra]
  exact ⟨_, rfl⟩

/-- With a stack size that is not a multiple of 4, `SysStartup_CallMainFunction`
never reaches its `jmp r1`. -/
theorem SysStartup_CallMainFunction_none (L : LinkerSymbols) (s : Machine) (fuel : Nat)
    (h4 : L.__ghssize_stack % 4 ≠ 0) :
    SysStartup_CallMainFunction L fuel s = none := by
  have hnone : SysStartup_CallMainFunction_InitStack L fuel s = none :=
    again_none fuel _ h4
  unfold SysStartup_CallMainFunction
  rw [hnone]

/-- C5, as stated, fails: with the stack at `[0x3001, 0x3003]` the stack pointer is
`0x3003 & 0xFFFFFFFC = 0x3000`, below `stackBegin`; and with the stack of 2 bytes
at `[0x3000, 0x3002)`, whose begin is a multiple of 4,
`SysStartup_CallMainFunction` never leaves the loop that fills the stack, so that
it produces no stack pointer at all. -/
theorem SysStartup_RuntimeEnvironment_sp_below_stack :
    ¬ (∀ (L : LinkerSymbols) (s : Machine),
        L.__ghsbegin_stack ≤ L.__ghsend_stack → L.__ghsend_stack < 4294967296 →
        (SysStartup_RuntimeEnvironment L s).sp % 4 = 0 ∧
        L.__ghsbegin_stack ≤ (SysStartup_RuntimeEnvironment L s).sp ∧
        (SysStartup_RuntimeEnvironment L s).sp ≤ L.__ghsend_stack) ∧
    (imageOddStack.__ghsbegin_stack ≤ imageOddStack.__ghsend_stack ∧
      imageOddStack.__ghsbegin_stack % 4 = 0 ∧
      ∀ fuel, SysStartup_CallMainFunction imageOddStack fuel resetMachine = none) := by
  refine ⟨fun h => ?_, by decide, by decide,
    fun fuel => SysStartup_CallMainFunction_none imageOddStack resetMachine fuel (by decide)⟩
  have h0 := (h imageMisalignedStack resetMachine (by decide) (by decide)).2.1
  revert h0
  decide

/-- C5, amended: for every stack region with `stackBegin <= stackEnd` and
`stackBegin` a multiple of 4, the stack pointer that `SysStartup_RuntimeEnvironment`
produces is `stackEnd & 0xFFFFFFFC`, a multiple of 4 within
`[stackBegin, stackEnd]`; when the stack size `stackEnd - stackBegin` is a
multiple of 4, `SysStartup_CallMainFunction` reaches its jump and produces the
same stack pointer again, and when the stack size is not a multiple of 4 it
never reaches its jump and produces none. -/
theorem SysStartup_stack_pointer (L : LinkerSymbols) (s : Machine)
    (hle : L.__ghsbegin_stack ≤ L.__ghsend_stack) (hend : L.__ghsend_stack < 4294967296)
    (hbegin : L.__ghsbegin_stack % 4 = 0) :
    ((SysStartup_RuntimeEnvironment L s).sp = L.__ghsend_stack &&& 0xFFFFFFFC ∧
      (SysStartup_RuntimeEnvironment L s).sp % 4 = 0 ∧
      L.__ghsbegin_stack ≤ (SysStartup_RuntimeEnvironment L s).sp ∧
      (SysStartup_RuntimeEnvironment L s).sp ≤ L.__ghsend_stack) ∧
    (∀ fuel s', SysStartup_CallMainFunction L fuel s = some s' →
      s'.sp = L.__ghsend_stack &&& 0xFFFFFFFC ∧ s'.sp % 4 = 0 ∧
      L.__ghsbegin_stack ≤ s'.sp ∧ s'.sp ≤ L.__ghsend_stack) ∧
    (L.__ghssize_stack = L.__ghsend_stack - L.__ghsbegin_stack →
      L.__ghssize_stack % 4 = 0 →
      ∃ n, ∀ fuel, n ≤ fuel → ∃ s', SysStartup_CallMainFunction L fuel s = some s' ∧
        s'.sp = L.__ghsend_stack &&& 0xFFFFFFFC ∧ s'.sp % 4 = 0 ∧
        L.__ghsbegin_stack ≤ s'.sp ∧ s'.sp ≤ L.__ghsend_stack) ∧
    (L.__ghssize_stack % 4 ≠ 0 →
      ∀ fuel, SysStartup_CallMainFunction L fuel s = none) := by
  have hm := and_minus_four L.__ghsend_stack hend
  have hsome : ∀ fuel s', SysStartup_CallMainFunction L fuel s = some s' →
      s'.sp = L.__ghsend_stack &&& 0xFFFFFFFC ∧ s'.sp % 4 = 0 ∧
      L.__ghsbegin_stack ≤ s'.sp ∧ s'.sp ≤ L.__ghsend_stack := by
    intro fuel s' h
    obtain ⟨t, _, _, _, hsp, _⟩ := SysStartup_CallMainFunction_some L s s' fuel h
    rw [hsp]
    refine ⟨rfl, ?_, ?_, ?_⟩ <;> rw [hm] <;> omega
  refine ⟨⟨rfl, ?_, ?_, ?_⟩, hsome, fun hsize h4 => ?_,
    fun h4 fuel => SysStartup_CallMainFunction_none L s fuel h4⟩
  · rw [SysStartup_RuntimeEnvironment_sp, hm]; omega
  · rw [SysStartup_RuntimeEnvironment_sp, hm]; omega
  · rw [SysStartup_RuntimeEnvironment_sp, hm]; omega
  · obtain ⟨n, hn⟩ := SysStartup_CallMainFunction_ends L s (by omega) h4
    refine ⟨n, fun fuel hf => ?_⟩
    obtain ⟨s', hs'⟩ := hn fuel hf
    exact ⟨s', hs', hsome fuel s' hs'⟩

/-- A stack at `[0x3000, 0x3020)`, of 32 bytes: the stack pointer that
`SysStartup_RuntimeEnvironment` produces is `0x3020`, and
`SysStartup_CallMainFunction` reaches its jump with the stack pointer `0x3020`
again. -/
theorem SysStartup_stack_pointer_witness :
    ((SysStartup_RuntimeEnvironment imageSmallStack resetMachine).sp = 0x3020 ∧
      (SysStartup_RuntimeEnvironment imageSmallStack resetMachine).sp % 4 = 0 ∧
      0x3000 ≤ (SysStartup_RuntimeEnvironment imageSmallStack resetMachine).sp ∧
      (SysStartup_RuntimeEnvironment imageSmallStack resetMachine).sp ≤ 0x3020) ∧
    (∃ n, ∀ fuel, n ≤ fuel →
      ∃ s', SysStartup_CallMainFunction imageSmallStack fuel resetMachine = some s' ∧
        s'.sp = 0x3020 ∧ s'.sp % 4 = 0 ∧ 0x3000 ≤ s'.sp ∧ s'.sp ≤ 0x3020) :=
  ⟨(SysStartup_stack_pointer imageSmallStack resetMachine
      (by decide) (by decide) (by decide)).1,
    (SysStartup_stack_pointer imageSmallStack resetMachine
      (by decide) (by decide) (by decide)).2.2.1 (by decide) (by decide)⟩

/-! ## The transfer to main -/

/-- C9: when `SysStartup_CallMainFunction` transfers control, the program counter
is the address of `main`, `lp` is the address of
`SysStartup_UnexpectedExitFromMain`, the stack pointer is the top of the stack
aligned down to 4 bytes, the stack region holds the sentinel, the only stores
made are those of the loop that fills the stack (nothing is pushed), and a
return through `lp` continues at the trap.  The transfer takes place when the
stack size is a multiple of 4. -/
theorem SysStartup_CallMainFunction_transfer (L : LinkerSymbols) (s : Machine)
    (hle : L.__ghsbegin_stack ≤ L.__ghsend_stack) (hend : L.__ghsend_stack < 4294967296)
    (hsize : L.__ghssize_stack = L.__ghsend_stack - L.__ghsbegin_stack) :
    (∀ fuel s', SysStartup_CallMainFunction L fuel s = some s' →
      s'.pc = L._main ∧
      s'.lp = L._SysStartup_UnexpectedExitFromMain ∧
      s'.sp = L.__ghsend_stack &&& 0xFFFFFFFC ∧
      (∀ x, L.__ghsbegin_stack ≤ x → x < L.__ghsend_stack → s'.mem.byte x = 0xAA) ∧
      s'.mem.stores = s.mem.stores + stackFillPasses L ∧
      (jmp_lp s').pc = L._SysStartup_UnexpectedExitFromMain) ∧
    (L.__ghssize_stack % 4 = 0 →
      ∃ n, ∀ fuel, n ≤ fuel → ∃ s', SysStartup_CallMainFunction L fuel s = some s') := by
  refine ⟨fun fuel s' h => ?_, fun h4 => SysStartup_CallMainFunction_ends L s (by omega) h4⟩
  obtain ⟨t, ht, hpc, hlp, hsp, hmem⟩ := SysStartup_CallMainFunction_some L s s' fuel h
  obtain ⟨h4, rfl⟩ := SysStartup_CallMainFunction_InitStack_some L s t fuel (by omega) ht
  refine ⟨hpc, hlp, hsp, fun x h1 h2 => ?_, ?_, ?_⟩
  · rw [hmem]
    exact stackFilled_byte L s hle hend hsize h4 x h1 h2
  · rw [hmem]
    exact stackFilled_stores L s
  · show s'.lp = _
    exact hlp

/-- A stack of 32 bytes at `[0x3000, 0x3020)`: eight passes, then control is at
`main` with `lp` at the trap and `sp = 0x3020`. -/
theorem SysStartup_CallMainFunction_transfer_witness :
    ∃ s', SysStartup_CallMainFunction imageSmallStack 8 resetMachine = some s' ∧
      s'.pc = 0x400 ∧ s'.lp = 0x440 ∧ s'.sp = 0x3020 ∧
      (∀ x, 0x3000 ≤ x → x < 0x3020 → s'.mem.byte x = 0xAA) ∧
      s'.mem.stores = 8 ∧ (jmp_lp s').pc = 0x440 := by
  obtain ⟨s', hs'⟩ := Option.isSome_iff_exists.1
    (by decide : (SysStartup_CallMainFunction imageSmallStack 8 resetMachine).isSome = true)
  exact ⟨s', hs',
    (SysStartup_CallMainFunction_transfer imageSmallStack resetMachine
      (by decide) (by decide) (by decide)).1 8 s' hs'⟩

/-! ## The startup sequence -/

/-- C8: `SysStartup` calls, in this order, `SysStartup_RuntimeEnvironment`, the
clock hook when one is linked in, `SysStartup_InitMemory` and
`SysStartup_CallMainFunction`.  A hook that is present is called exactly once, on
the state the environment initialization leaves and before the memory
initialization; an absent hook is not called, and the machine then ends as it
does with a hook that does nothing.  With a stack size that is a multiple of 4
the sequence reaches the transfer to `main`. -/
theorem SysStartup_order (L : LinkerSymbols) (secinfo : Nat → runtimeCopyTable_t)
    (fuel : Nat) (s : Machine) :
    (∀ f : Machine → Machine,
      (SysStartup L secinfo (some f) fuel s).calls
        = [Call.RuntimeEnvironment, Call.InitSysClocks, Call.InitMemory,
            Call.CallMainFunction] ∧
      (SysStartup L secinfo (some f) fuel s).calls.count Call.InitSysClocks = 1 ∧
      (SysStartup L secinfo (some f) fuel s).machine
        = SysStartup_CallMainFunction L fuel
            { f (SysStartup_RuntimeEnvironment L s) with
              mem := SysStartup_InitMemory L secinfo
                (f (SysStartup_RuntimeEnvironment L s)).mem }) ∧
    ((SysStartup L secinfo none fuel s).calls
        = [Call.RuntimeEnvironment, Call.InitMemory, Call.CallMainFunction] ∧
      (SysStartup L secinfo none fuel s).calls.count Call.InitSysClocks = 0 ∧
      (SysStartup L secinfo none fuel s).machine
        = SysStartup_CallMainFunction L fuel
            { SysStartup_RuntimeEnvironment L s with
              mem := SysStartup_InitMemory L secinfo
                (SysStartup_RuntimeEnvironment L s).mem }) ∧
    (SysStartup L secinfo none fuel s).machine
      = (SysStartup L secinfo (some id) fuel s).machine ∧
    (L.__ghssize_stack < 4294967296 → L.__ghssize_stack % 4 = 0 →
      ∀ hook : Option (Machine → Machine), ∃ n, ∀ fuel', n ≤ fuel' →
        ∃ s', (SysStartup L secinfo hook fuel' s).machine = some s') := by
  refine ⟨fun f => ⟨rfl, rfl, rfl⟩, ⟨rfl, rfl, rfl⟩, rfl, fun hsz h4 hook => ?_⟩
  cases hook with
  | none => exact SysStartup_CallMainFunction_ends L _ hsz h4
  | some f => exact SysStartup_CallMainFunction_ends L _ hsz h4

/-- The image with a stack of 32 bytes: the calls with and without a hook, and
the sequence reaching `main` in both cases. -/
theorem SysStartup_order_witness :
    (SysStartup imageSmallStack tableB (some (fun m => { m with r10 := 7 })) 8
        resetMachine).calls
      = [Call.RuntimeEnvironment, Call.InitSysClocks, Call.InitMemory,
          Call.CallMainFunction] ∧
    (SysStartup imageSmallStack tableB none 8 resetMachine).calls
      = [Call.RuntimeEnvironment, Call.InitMemory, Call.CallMainFunction] ∧
    ∃ n, ∀ fuel', n ≤ fuel' →
      ∃ s', (SysStartup imageSmallStack tableB none fuel' resetMachine).machine = some s' :=
  ⟨((SysStartup_order imageSmallStack tableB 8 resetMachine).1 _).1,
    (SysStartup_order imageSmallStack tableB 8 resetMachine).2.1.1,
    (SysStartup_order imageSmallStack tableB 8 resetMachine).2.2.2 (by decide) (by decide)
      none⟩

/-! ## The trap -/

/-- C10: `SysStartup_UnexpectedExitFromMain` never exits: from the head of its
loop, after any number `n` of steps control is still at the head of the loop,
not at the exit, and the memory and the registers are unchanged. -/
theorem SysStartup_UnexpectedExitFromMain_never_exits (s : Machine) (n : Nat) :
    SysStartup_UnexpectedExitFromMain^[n] (TrapPoint.loop, s) = (TrapPoint.loop, s) ∧
    (SysStartup_UnexpectedExitFromMain^[n] (TrapPoint.loop, s)).1 ≠ TrapPoint.exit := by
  have h : SysStartup_UnexpectedExitFromMain^[n] (TrapPoint.loop, s) = (TrapPoint.loop, s) := by
    induction n with
    | zero => rfl
    | succ n ih =>
      rw [Function.iterate_succ_apply']
      rw [ih]
      rfl
  refine ⟨h, ?_⟩
  rw [h]
  exact fun e => TrapPoint.noConfusion e

/-! ## The length of the table -/

theorem memAfter_congr (L L' : LinkerSymbols) (secinfo secinfo' : Nat → runtimeCopyTable_t)
    (m : Memory) (n : Nat)
    (h : ∀ i, i < n → ∀ m, SysStartup_InitMemory_body L secinfo i m
      = SysStartup_InitMemory_body L' secinfo' i m) :
    ∀ k, k ≤ n → memAfter L secinfo m k = memAfter L' secinfo' m k := by
  intro k
  induction k with
  | zero => intro _; rfl
  | succ k ih =>
    intro hk
    rw [memAfter_succ, memAfter_succ, ih (by omega)]
    exact h k (by omega) _

/-- Two images that differ in the length of the table only, with the same number
of complete records, are initialized alike. -/
theorem SysStartup_InitMemory_length (L : LinkerSymbols) (len : Nat)
    (secinfo : Nat → runtimeCopyTable_t) (m : Memory)
    (h : len / 12 = L.__ghssize_secinfo / 12) :
    SysStartup_InitMemory { L with __ghssize_secinfo := len } secinfo m
      = SysStartup_InitMemory L secinfo m := by
  rw [SysStartup_InitMemory_eq_memAfter, SysStartup_InitMemory_eq_memAfter]
  have hn : entryCount { L with __ghssize_secinfo := len } = entryCount L := h
  rw [hn]
  exact memAfter_congr _ L secinfo secinfo m (entryCount L) (fun _ _ _ => rfl) _ (le_refl _)

theorem SysStartup_InitMemory_logged_eq (L : LinkerSymbols)
    (secinfo : Nat → runtimeCopyTable_t) (m : Memory) :
    SysStartup_InitMemory_logged L secinfo m
      = (SysStartup_InitMemory L secinfo m, List.range (L.__ghssize_secinfo / 12)) := by
  have key : ∀ k, (List.range k).foldl
      (fun (p : Memory × List Nat) i => (SysStartup_InitMemory_body L secinfo i p.1, p.2 ++ [i]))
      (m, []) = (memAfter L secinfo m k, List.range k) := by
    intro k
    induction k with
    | zero => rfl
    | succ k ih => rw [foldl_range_succ, ih, memAfter_succ, List.range_succ]
  rw [SysStartup_InitMemory_eq_memAfter]
  unfold SysStartup_InitMemory_logged
  rw [forLoop_eq_foldl]
  exact key _

/-- C11, as stated, fails: the table of `imageClear13` is 13 bytes long, not a
multiple of 12, and `SysStartup_InitMemory` processes it as it processes the
table of 12 bytes of `imageClear`: the 32 bytes at `0x2000` are cleared. -/
theorem SysStartup_InitMemory_length_13_processed :
    imageClear13.__ghssize_secinfo % 12 ≠ 0 ∧
    SysStartup_InitMemory imageClear13 tableB ramPattern
      = SysStartup_InitMemory imageClear tableB ramPattern ∧
    (SysStartup_InitMemory imageClear13 tableB ramPattern).byte 0x2000
      ≠ ramPattern.byte 0x2000 :=
  ⟨by decide, SysStartup_InitMemory_length imageClear 13 tableB ramPattern (by decide),
    by decide⟩

/-- C11, amended: a table whose length is not a multiple of 12 is not rejected:
`SysStartup_InitMemory` processes it exactly as it processes the table cut to its
complete records, of length `12 * (totalSize / 12)`. -/
theorem SysStartup_InitMemory_length_not_checked (L : LinkerSymbols)
    (secinfo : Nat → runtimeCopyTable_t) (m : Memory) :
    SysStartup_InitMemory L secinfo m
      = SysStartup_InitMemory
          { L with __ghssize_secinfo := 12 * (L.__ghssize_secinfo / 12) } secinfo m := by
  have h : 12 * (L.__ghssize_secinfo / 12) / 12 = L.__ghssize_secinfo / 12 := by omega
  rw [SysStartup_InitMemory_eq_memAfter, SysStartup_InitMemory_eq_memAfter]
  have hn : entryCount { L with __ghssize_secinfo := 12 * (L.__ghssize_secinfo / 12) }
      = entryCount L := h
  rw [hn]
  exact memAfter_congr L _ secinfo secinfo m (entryCount L) (fun _ _ _ => rfl) _ (le_refl _)

/-! ## The stack exclusion tests the start address only -/

/-- C12: there is an image with a clear entry that starts below `stackBegin` and
reaches into the stack, for which `SysStartup_InitMemory` zeroes a byte of
`[stackBegin, stackEnd]`: the clear of 32 bytes at `0x2FF0` with the stack at
`0x3000` zeroes the byte at `0x3000` (and the byte at `0x300F`). -/
theorem SysStartup_InitMemory_clears_into_stack :
    ∃ (L : LinkerSymbols) (secinfo : Nat → runtimeCopyTable_t) (m : Memory) (i x : Nat),
      i < entryCount L ∧ isClearEntry L i ∧
      (secinfo i).targetAddr < L.__ghsbegin_stack ∧
      (secinfo i).targetAddr + (secinfo i).size > L.__ghsbegin_stack ∧
      inStack L x ∧ inStack L (x + 15) ∧ m.byte x ≠ 0 ∧ m.byte (x + 15) ≠ 0 ∧
      (SysStartup_InitMemory L secinfo m).byte x = 0 ∧
      (SysStartup_InitMemory L secinfo m).byte (x + 15) = 0 :=
  ⟨imageClear, tableIntoStack, ramPattern, 0, 0x3000, by decide, by decide, by decide,
    by decide, by decide, by decide, by decide, by decide, by decide, by decide⟩

/-! ## The number of records visited -/

/-- C14: `SysStartup_InitMemory` visits exactly `totalSize / 12` records, the
indices `0, ..., totalSize/12 - 1` in this order; its result does not depend on
any record from index `totalSize / 12` on, so that a trailing partial record is
never read; and with `totalSize < 12` the memory is unchanged. -/
theorem SysStartup_InitMemory_visits (L : LinkerSymbols)
    (secinfo : Nat → runtimeCopyTable_t) (m : Memory) :
    SysStartup_InitMemory_logged L secinfo m
      = (SysStartup_InitMemory L secinfo m, List.range (L.__ghssize_secinfo / 12)) ∧
    (List.range (L.__ghssize_secinfo / 12)).length = L.__ghssize_secinfo / 12 ∧
    (∀ secinfo' : Nat → runtimeCopyTable_t,
      (∀ i, i < L.__ghssize_secinfo / 12 → secinfo' i = secinfo i) →
      SysStartup_InitMemory L secinfo' m = SysStartup_InitMemory L secinfo m) ∧
    (L.__ghssize_secinfo < 12 → SysStartup_InitMemory L secinfo m = m) := by
  refine ⟨SysStartup_InitMemory_logged_eq L secinfo m, List.length_range _, ?_, ?_⟩
  · intro secinfo' h
    rw [SysStartup_InitMemory_eq_memAfter, SysStartup_InitMemory_eq_memAfter]
    refine memAfter_congr L L secinfo' secinfo m (entryCount L) (fun i hi m => ?_) _
      (le_refl _)
    unfold SysStartup_InitMemory_body
    rw [h i hi]
  · intro h
    rw [SysStartup_InitMemory_eq_memAfter]
    have h0 : entryCount L = 0 := by
      unfold entryCount sizeof_runtimeCopyTable_t
      omega
    rw [h0]
    rfl

/-- With a table of 13 bytes the record at index 1, of which only one byte lies
in the table, is not read; with a table of 11 bytes nothing is done. -/
theorem SysStartup_InitMemory_visits_witness :
    SysStartup_InitMemory imageClear13 tableB1 ramPattern
      = SysStartup_InitMemory imageClear13 tableB ramPattern ∧
    SysStartup_InitMemory imageClear11 tableB ramPattern = ramPattern :=
  ⟨(SysStartup_InitMemory_visits imageClear13 tableB ramPattern).2.2.1 tableB1 (by decide),
    (SysStartup_InitMemory_visits imageClear11 tableB ramPattern).2.2.2 (by decide)⟩

/-! ## The copy goes forward, byte by byte -/

/-- When no iteration reads a byte that an earlier iteration has stored to, the
loop of `SysStartup_Memcpy` copies the source region as it was. -/
theorem Memcpy_fold_forward (m : Memory) (target source size : Nat)
    (hsize : size ≤ 4294967296)
    (hread : ∀ n, n < size → ¬ inRegion target n ((source + n) % 4294967296)) :
    ∀ n, n ≤ size → ∀ k, k < n →
      ((List.range n).foldl
          (fun m i => m.storeByte (target + i) (m.loadByte (source + i))) m).byte
            ((target + k) % 4294967296)
        = m.byte ((source + k) % 4294967296) := by
  intro n
  induction n with
  | zero => intro _ k hk; omega
  | succ n ih =>
    intro hn k hk
    rw [foldl_range_succ, storeByte_byte]
    by_cases he : (target + k) % 4294967296 = (target + n) % 4294967296
    · have hkn : k = n := by omega
      rw [if_pos he, Memory.loadByte,
        Memcpy_fold_frame m target source n _ (hread n (by omega)), hkn]
    · rw [if_neg he]
      have hkn : k ≠ n := by
        intro h; rw [h] at he; exact he rfl
      exact ih (by omega) k (by omega)

/-- With the target `k` bytes above the source, the loop of `SysStartup_Memcpy`
repeats the first `k` bytes of the source. -/
theorem Memcpy_fold_overlap (m : Memory) (source k size : Nat) (hk : 0 < k)
    (hsize : source + k + size ≤ 4294967296) :
    ∀ n, n ≤ size → ∀ i, i < n →
      ((List.range n).foldl
          (fun m j => m.storeByte (source + k + j) (m.loadByte (source + j))) m).byte
            (source + k + i)
        = m.byte (source + i % k) := by
  intro n
  induction n with
  | zero => intro _ i hi; omega
  | succ n ih =>
    intro hn i hi
    rw [foldl_range_succ, storeByte_byte]
    have e1 : (source + k + n) % 4294967296 = source + k + n := Nat.mod_eq_of_lt (by omega)
    have e2 : (source + n) % 4294967296 = source + n := Nat.mod_eq_of_lt (by omega)
    rw [e1]
    by_cases he : i = n
    · rw [if_pos (by omega), Memory.loadByte, e2, he]
      by_cases hnk : n < k
      · have hfr : ¬ inRegion (source + k) n (source + n) := by
          rintro ⟨j, hj, e⟩
          have e3 : (source + k + j) % 4294967296 = source + k + j :=
            Nat.mod_eq_of_lt (by omega)
          omega
        rw [Memcpy_fold_frame m (source + k) source n _ hfr, Nat.mod_eq_of_lt hnk]
      · have hsplit : source + n = source + k + (n - k) := by omega
        have hm : n % k = (n - k) % k := Nat.mod_eq_sub_mod (by omega)
        rw [hsplit, ih (by omega) (n - k) (by omega), hm]
    · rw [if_neg (by omega)]
      exact ih (by omega) i (by omega)

/-- C13: `SysStartup_Memcpy` copies forward, one byte at a time, with no test for
overlap.  For regions inside the address space: when the two regions are
disjoint, or `target <= source`, the byte at `target + i` ends up as the byte
that was at `source + i`, for every `i < size`; when `target = source + k` with
`0 < k < size`, the byte at `target + i` ends up as the byte that was at
`source + (i mod k)`, which is not the byte of a true copy wherever the source
does not repeat with period `k`. -/
theorem SysStartup_Memcpy_forward (m : Memory) (target source size : Nat)
    (hs : source + size ≤ 4294967296) (ht : target + size ≤ 4294967296) :
    ((source + size ≤ target ∨ target + size ≤ source ∨ target ≤ source) →
      ∀ i, i < size →
        (SysStartup_Memcpy m target source size).byte (target + i) = m.byte (source + i)) ∧
    (∀ k, 0 < k → k < size → target = source + k →
      ∀ i, i < size →
        (SysStartup_Memcpy m target source size).byte (target + i)
          = m.byte (source + i % k) ∧
        (m.byte (source + i) ≠ m.byte (source + i % k) →
          (SysStartup_Memcpy m target source size).byte (target + i)
            ≠ m.byte (source + i))) := by
  constructor
  · intro hcase i hi
    have hread : ∀ n, n < size → ¬ inRegion target n ((source + n) % 4294967296) := by
      rintro n hn ⟨j, hj, e⟩
      have e1 : (source + n) % 4294967296 = source + n := Nat.mod_eq_of_lt (by omega)
      have e2 : (target + j) % 4294967296 = target + j := Nat.mod_eq_of_lt (by omega)
      omega
    have h := Memcpy_fold_forward m target source size (by omega) hread size (le_refl _) i hi
    rw [Nat.mod_eq_of_lt (show target + i < 4294967296 by omega),
      Nat.mod_eq_of_lt (show source + i < 4294967296 by omega)] at h
    unfold SysStartup_Memcpy
    rw [forLoop_eq_foldl]
    exact h
  · intro k hk0 hk htk i hi
    have h : (SysStartup_Memcpy m target source size).byte (target + i)
        = m.byte (source + i % k) := by
      unfold SysStartup_Memcpy
      rw [forLoop_eq_foldl, htk]
      exact Memcpy_fold_overlap m source k size hk0 (by omega) size (le_refl _) i hi
    exact ⟨h, fun hne => by rw [h]; exact fun e => hne e.symm⟩

/-- A copy of 16 bytes from `0x8000` to `0x1000` is a true copy; a copy of 6 bytes
from `0x8000` to `0x8002` puts at `0x8004` the byte that was at `0x8000`, not the
byte that was at `0x8002`. -/
theorem SysStartup_Memcpy_forward_witness :
    (SysStartup_Memcpy ramPattern 0x1000 0x8000 16).byte 0x100F = ramPattern.byte 0x800F ∧
    (SysStartup_Memcpy ramPattern 0x8002 0x8000 6).byte 0x8004 = ramPattern.byte 0x8000 ∧
    (SysStartup_Memcpy ramPattern 0x8002 0x8000 6).byte 0x8004 ≠ ramPattern.byte 0x8002 :=
  ⟨(SysStartup_Memcpy_forward ramPattern 0x1000 0x8000 16 (by decide) (by decide)).1
      (Or.inr (Or.inl (by decide))) 15 (by decide),
    ((SysStartup_Memcpy_forward ramPattern 0x8002 0x8000 6 (by decide) (by decide)).2
      2 (by decide) (by decide) (by decide) 2 (by decide)).1,
    ((SysStartup_Memcpy_forward ramPattern 0x8002 0x8000 6 (by decide) (by decide)).2
      2 (by decide) (by decide) (by decide) 2 (by decide)).2 (by decide)⟩

/-! ## The frame of the table executor -/

/-- A region that does not pass the top of the address space is the interval
`[ptr, ptr + size)`. -/
theorem inRegion_interval (ptr size x : Nat) (h : ptr + size ≤ 4294967296)
    (hx : inRegion ptr size x) : ptr ≤ x ∧ x < ptr + size := by
  obtain ⟨k, hk, e⟩ := hx
  have e1 : (ptr + k) % 4294967296 = ptr + k := Nat.mod_eq_of_lt (by omega)
  omega

/-- C15: the frame of `SysStartup_InitMemory`.  Every address that is not a byte
of the target region of an applied entry (a copy entry, or a clear entry whose
target is outside `[stackBegin, stackEnd]`) holds the same byte after
`SysStartup_InitMemory` as before, the region being the `size` bytes from
`targetAddr` in 32-bit addresses, that is the interval
`[targetAddr, targetAddr + size)` when it does not pass the top of the address
space; in particular, when no applied entry stores into the stack region, the
stack region is unchanged. -/
theorem SysStartup_InitMemory_frame (L : LinkerSymbols)
    (secinfo : Nat → runtimeCopyTable_t) (m : Memory) :
    (∀ x, (∀ i, i < entryCount L → ¬ writesAt L secinfo i x) →
      (SysStartup_InitMemory L secinfo m).byte x = m.byte x) ∧
    ((∀ i, i < entryCount L → (clearApplied L secinfo i ∨ isCopyEntry L i) →
        (secinfo i).targetAddr + (secinfo i).size ≤ 4294967296) →
      ∀ x, (∀ i, i < entryCount L → (clearApplied L secinfo i ∨ isCopyEntry L i) →
          ¬ ((secinfo i).targetAddr ≤ x ∧ x < (secinfo i).targetAddr + (secinfo i).size)) →
        (SysStartup_InitMemory L secinfo m).byte x = m.byte x) ∧
    ((∀ i, i < entryCount L → ∀ x, inStack L x → ¬ writesAt L secinfo i x) →
      ∀ x, inStack L x → (SysStartup_InitMemory L secinfo m).byte x = m.byte x) := by
  have key : ∀ x, (∀ i, i < entryCount L → ¬ writesAt L secinfo i x) →
      (SysStartup_InitMemory L secinfo m).byte x = m.byte x := by
    intro x h
    rw [SysStartup_InitMemory_eq_memAfter]
    exact memAfter_frame_le L secinfo m x 0 (entryCount L) (Nat.zero_le _)
      (fun j _ hj => h j hj)
  refine ⟨key, fun hwrap x h => key x (fun i hi hw => ?_),
    fun h x hx => key x (fun i hi => h i hi x hx)⟩
  exact h i hi hw.1 (inRegion_interval _ _ _ (hwrap i hi hw.1) hw.2)

/-- In `imageClearPadCopy` the clear stores to `[0x2000, 0x2004)` and the copy to
`[0x1000, 0x1004)`: the bytes at `0x2004` and at `0x3000` are unchanged. -/
theorem SysStartup_InitMemory_frame_witness :
    (SysStartup_InitMemory imageClearPadCopy
        (tableClearPadCopy { targetAddr := 0, sourceAddr := 0, size := 0 }) ramPattern).byte
          0x2004 = ramPattern.byte 0x2004 ∧
    (SysStartup_InitMemory imageClearPadCopy
        (tableClearPadCopy { targetAddr := 0, sourceAddr := 0, size := 0 }) ramPattern).byte
          0x3000 = ramPattern.byte 0x3000 :=
  ⟨(SysStartup_InitMemory_frame imageClearPadCopy _ ramPattern).1 0x2004 (by decide),
    (SysStartup_InitMemory_frame imageClearPadCopy _ ramPattern).2.1 (by decide) 0x3000
      (by decide)⟩

/-! ## Termination of the loop that fills the stack -/

/-- With `r21 = 4 * (n + 1)` the loop has not ended after `n` passes or fewer. -/
theorem again_too_few (n : Nat) :
    ∀ (s : Machine) (fuel : Nat), n + 1 ≤ 1073741824 →
      s.r21 = (4 * (n + 1)) % 4294967296 → fuel ≤ n → again fuel s = none := by
  induction n with
  | zero =>
    intro s fuel _ _ hf
    have h0 : fuel = 0 := by omega
    rw [h0]
    rfl
  | succ n ih =>
    intro s fuel hn h hf
    cases fuel with
    | zero => rfl
    | succ fuel =>
      have hr : (again_body s).r21 = (s.r21 + 4294967292) % 4294967296 := rfl
      have h1 : (again_body s).r21 = (4 * (n + 1)) % 4294967296 := by omega
      have h0 : (again_body s).r21 ≠ 0 := by omega
      rw [again_succ, if_pos h0]
      exact ih (again_body s) fuel (by omega) h1 (by omega)

theorem SysStartup_CallMainFunction_InitStack_too_few (L : LinkerSymbols) (s : Machine)
    (hsz : L.__ghssize_stack < 4294967296) (h4 : L.__ghssize_stack % 4 = 0) (fuel : Nat)
    (hf : fuel < stackFillPasses L) :
    SysStartup_CallMainFunction_InitStack L fuel s = none := by
  have hp : 1 ≤ stackFillPasses L ∧ stackFillPasses L ≤ 1073741824 ∧
      L.__ghssize_stack = (4 * stackFillPasses L) % 4294967296 := by
    unfold stackFillPasses
    split <;> omega
  obtain ⟨n, hn⟩ := Nat.exists_eq_add_of_le hp.1
  have hn' : stackFillPasses L = n + 1 := by omega
  unfold SysStartup_CallMainFunction_InitStack
  exact again_too_few n _ fuel (by omega) (by rw [← hn']; exact hp.2.2) (by omega)

theorem stackFilled_mem (L : LinkerSymbols) (s : Machine) (x : Nat) :
    (stackFilled L s).mem.byte x
      = if inRegion L.__ghsbegin_stack (4 * stackFillPasses L) x then 170 else s.mem.byte x :=
  (again_body_iterate
    { s with r20 := L.__ghsbegin_stack, r21 := L.__ghssize_stack, r22 := 0xAAAAAAAA }
    rfl (stackFillPasses L)).2.2.2 x

/-- C16: the loop that fills the stack ends if and only if the stack size is a
multiple of 4.  For a positive multiple of 4 it makes exactly `size / 4` passes,
one word store each, after which the `size` bytes from `stackBegin` hold `0xAA`
and every other byte is as before; for the size 0 it makes `2^30` passes and
every byte of the 32-bit address space holds `0xAA`. -/
theorem SysStartup_CallMainFunction_InitStack_terminates (L : LinkerSymbols) (s : Machine)
    (hsz : L.__ghssize_stack < 4294967296) :
    ((∃ fuel s', SysStartup_CallMainFunction_InitStack L fuel s = some s')
      ↔ L.__ghssize_stack % 4 = 0) ∧
    (L.__ghssize_stack % 4 = 0 → 0 < L.__ghssize_stack →
      ∃ s', (∀ fuel, L.__ghssize_stack / 4 ≤ fuel →
          SysStartup_CallMainFunction_InitStack L fuel s = some s') ∧
        (∀ fuel, fuel < L.__ghssize_stack / 4 →
          SysStartup_CallMainFunction_InitStack L fuel s = none) ∧
        s'.mem.stores = s.mem.stores + L.__ghssize_stack / 4 ∧
        (∀ x, inRegion L.__ghsbegin_stack L.__ghssize_stack x → s'.mem.byte x = 0xAA) ∧
        (∀ x, ¬ inRegion L.__ghsbegin_stack L.__ghssize_stack x →
          s'.mem.byte x = s.mem.byte x)) ∧
    (L.__ghssize_stack = 0 →
      ∃ s', (∀ fuel, 1073741824 ≤ fuel →
          SysStartup_CallMainFunction_InitStack L fuel s = some s') ∧
        (∀ fuel, fuel < 1073741824 →
          SysStartup_CallMainFunction_InitStack L fuel s = none) ∧
        s'.mem.stores = s.mem.stores + 1073741824 ∧
        (∀ x, x < 4294967296 → s'.mem.byte x = 0xAA)) := by
  refine ⟨⟨fun ⟨fuel, s', h⟩ =>
      (SysStartup_CallMainFunction_InitStack_some L s s' fuel hsz h).1,
    fun h4 => ⟨stackFillPasses L, stackFilled L s, ?_⟩⟩, fun h4 hpos => ?_, fun h0 => ?_⟩
  · have h := SysStartup_CallMainFunction_InitStack_run L s hsz h4 0
    exact h
  · have hp : stackFillPasses L = L.__ghssize_stack / 4 := by
      unfold stackFillPasses
      rw [if_neg (by omega)]
    have h4p : 4 * stackFillPasses L = L.__ghssize_stack := by omega
    refine ⟨stackFilled L s, fun fuel hf => ?_, fun fuel hf => ?_, ?_, fun x hx => ?_,
      fun x hx => ?_⟩
    · obtain ⟨extra, rfl⟩ := Nat.exists_eq_add_of_le hf
      rw [← hp]
      exact SysStartup_CallMainFunction_InitStack_run L s hsz h4 extra
    · exact SysStartup_CallMainFunction_InitStack_too_few L s hsz h4 fuel (by omega)
    · rw [stackFilled_stores, hp]
    · rw [stackFilled_mem, h4p, if_pos hx]
    · rw [stackFilled_mem, h4p, if_neg hx]
  · have hp : stackFillPasses L = 1073741824 := by
      unfold stackFillPasses
      rw [if_pos h0]
    refine ⟨stackFilled L s, fun fuel hf => ?_, fun fuel hf => ?_, ?_, fun x hx => ?_⟩
    · obtain ⟨extra, rfl⟩ := Nat.exists_eq_add_of_le hf
      rw [← hp]
      exact SysStartup_CallMainFunction_InitStack_run L s hsz (by omega) extra
    · exact SysStartup_CallMainFunction_InitStack_too_few L s hsz (by omega) fuel (by omega)
    · rw [stackFilled_stores, hp]
    · rw [stackFilled_mem, hp, if_pos]
      exact ⟨(x + 4294967296 - L.__ghsbegin_stack % 4294967296) % 4294967296,
        by omega, by omega⟩

/-- The stack of 32 bytes is filled in 8 passes and not in fewer; the stack of 2
bytes is never filled; the empty stack takes `2^30` passes. -/
theorem SysStartup_CallMainFunction_InitStack_terminates_witness :
    ((∃ fuel s', SysStartup_CallMainFunction_InitStack imageOddStack fuel resetMachine
        = some s') ↔ imageOddStack.__ghssize_stack % 4 = 0) ∧
    (∃ s', (∀ fuel, 8 ≤ fuel →
          SysStartup_CallMainFunction_InitStack imageSmallStack fuel resetMachine = some s') ∧
        (∀ fuel, fuel < 8 →
          SysStartup_CallMainFunction_InitStack imageSmallStack fuel resetMachine = none) ∧
        s'.mem.stores = 8 ∧
        (∀ x, inRegion 0x3000 32 x → s'.mem.byte x = 0xAA) ∧
        (∀ x, ¬ inRegion 0x3000 32 x → s'.mem.byte x = ramPattern.byte x)) ∧
    (∃ s', (∀ fuel, 1073741824 ≤ fuel →
          SysStartup_CallMainFunction_InitStack imageEmptyStack fuel resetMachine = some s') ∧
        (∀ fuel, fuel < 1073741824 →
          SysStartup_CallMainFunction_InitStack imageEmptyStack fuel resetMachine = none) ∧
        s'.mem.stores = 1073741824 ∧
        (∀ x, x < 4294967296 → s'.mem.byte x = 0xAA)) :=
  ⟨(SysStartup_CallMainFunction_InitStack_terminates imageOddStack resetMachine
      (by decide)).1,
    (SysStartup_CallMainFunction_InitStack_terminates imageSmallStack resetMachine
      (by decide)).2.1 (by decide) (by decide),
    (SysStartup_CallMainFunction_InitStack_terminates imageEmptyStack resetMachine
      (by decide)).2.2 (by decide)⟩

/-! ## Termination of the C loops -/

theorem forLoopInt_succ {σ : Type} (size : Nat) (body : Nat → σ → σ) (fuel : Nat) (i : Int)
    (s : σ) :
    forLoopInt size body (fuel + 1) i s
      = if (i % 4294967296).toNat < size then
          if i = 2147483647 then none
          else forLoopInt size body fuel (i + 1) (body i.toNat s)
        else some s := rfl

/-- Below `2^31` the counter does not overflow, and the loop with the signed
counter ends after `size` iterations in the state the loop header gives. -/
theorem forLoopInt_range' {σ : Type} (size : Nat) (body : Nat → σ → σ)
    (hsize : size < 2147483648) :
    ∀ (fuel i : Nat) (s : σ), i ≤ size → size - i < fuel →
      forLoopInt size body fuel (i : Int) s
        = some ((List.range' i (size - i)).foldl (fun s i => body i s) s) := by
  intro fuel
  induction fuel with
  | zero => intro i s _ h; omega
  | succ fuel ih =>
    intro i s hi hf
    have hu : ((i : Int) % 4294967296).toNat = i := by omega
    rw [forLoopInt_succ, hu]
    by_cases hlt : i < size
    · have hmax : ¬ ((i : Int) = 2147483647) := by omega
      have h1 : size - i = (size - (i + 1)) + 1 := by omega
      have hc : ((i : Int) + 1) = ((i + 1 : Nat) : Int) := by push_cast; rfl
      rw [if_pos hlt, if_neg hmax, hc, ih (i + 1) _ (by omega) (by omega), h1,
        List.range'_succ, Int.toNat_ofNat]
      rfl
    · have h0 : size - i = 0 := by omega
      rw [if_neg hlt, h0]
      rfl

theorem forLoopInt_eq_forLoop {σ : Type} (size : Nat) (body : Nat → σ → σ) (s : σ)
    (hsize : size < 2147483648) (extra : Nat) :
    forLoopInt size body (size + 1 + extra) 0 s = some (forLoop size body size 0 s) := by
  have h := forLoopInt_range' size body hsize (size + 1 + extra) 0 s (by omega) (by omega)
  rw [forLoop_range' size body size 0 s (by omega)]
  exact h

theorem Memcpy_fold_first (m : Memory) (target source : Nat) :
    ∀ n, n < 4294967296 →
      ((List.range (n + 1)).foldl
          (fun m i => m.storeByte (target + i) (m.loadByte (source + i))) m).byte
            (target % 4294967296)
        = m.byte (source % 4294967296) := by
  intro n
  induction n with
  | zero =>
    intro _
    rw [foldl_range_succ, storeByte_byte, if_pos (by omega)]
    rfl
  | succ n ih =>
    intro hn
    rw [foldl_range_succ, storeByte_byte, if_neg (by omega)]
    exact ih (by omega)

/-- A copy whose source bytes all lie in a target region that holds zeros leaves
zeros in the target region. -/
theorem Memcpy_fold_zero (m : Memory) (target source size : Nat)
    (hzero : ∀ x, inRegion target size x → m.byte x = 0)
    (hsrc : ∀ k, k < size → inRegion target size ((source + k) % 4294967296)) :
    ∀ n, n ≤ size → ∀ x, inRegion target size x →
      ((List.range n).foldl
          (fun m i => m.storeByte (target + i) (m.loadByte (source + i))) m).byte x = 0 := by
  intro n
  induction n with
  | zero => intro _ x hx; exact hzero x hx
  | succ n ih =>
    intro hn x hx
    rw [foldl_range_succ, storeByte_byte]
    by_cases he : x = (target + n) % 4294967296
    · rw [if_pos he]
      exact ih (by omega) _ (hsrc n (by omega))
    · rw [if_neg he]
      exact ih (by omega) x hx

/-- C18: the classification as clear and as copy are two independent tests.  When
the two sub-ranges are disjoint no record is in both, and an iteration does
nothing, or clears, or copies; a record that lies in both sub-ranges is cleared
first (unless its target is in `[stackBegin, stackEnd]`) and copied second, the
copy working on the memory the clear has left, so that a source byte the clear
has zeroed is copied as zero: the first target byte is zero when the first source
byte lies in the cleared region, and the whole target region is zero when the
whole source region lies in it. -/
theorem SysStartup_InitMemory_body_both (L : LinkerSymbols)
    (secinfo : Nat → runtimeCopyTable_t) (i : Nat) (m : Memory) :
    ((∀ a, ¬ ((L.__ghsbinfo_clear ≤ a ∧ a < L.__ghseinfo_clear) ∧
          (L.__ghsbinfo_copy ≤ a ∧ a < L.__ghseinfo_copy))) →
      ¬ (isClearEntry L i ∧ isCopyEntry L i) ∧
      (SysStartup_InitMemory_body L secinfo i m = m ∨
        SysStartup_InitMemory_body L secinfo i m
          = SysStartup_Memset m (secinfo i).targetAddr 0 (secinfo i).size ∨
        SysStartup_InitMemory_body L secinfo i m
          = SysStartup_Memcpy m (secinfo i).targetAddr (secinfo i).sourceAddr
              (secinfo i).size)) ∧
    (isClearEntry L i → isCopyEntry L i →
      SysStartup_InitMemory_body L secinfo i m
        = SysStartup_Memcpy
            (if inStack L (secinfo i).targetAddr then m
              else SysStartup_Memset m (secinfo i).targetAddr 0 (secinfo i).size)
            (secinfo i).targetAddr (secinfo i).sourceAddr (secinfo i).size) ∧
    (isClearEntry L i → isCopyEntry L i → ¬ inStack L (secinfo i).targetAddr →
      0 < (secinfo i).size → (secinfo i).size ≤ 4294967296 →
      inRegion (secinfo i).targetAddr (secinfo i).size
        ((secinfo i).sourceAddr % 4294967296) →
      (SysStartup_InitMemory_body L secinfo i m).byte
        ((secinfo i).targetAddr % 4294967296) = 0) ∧
    (isClearEntry L i → isCopyEntry L i → ¬ inStack L (secinfo i).targetAddr →
      (∀ k, k < (secinfo i).size →
        inRegion (secinfo i).targetAddr (secinfo i).size
          (((secinfo i).sourceAddr + k) % 4294967296)) →
      ∀ x, inRegion (secinfo i).targetAddr (secinfo i).size x →
        (SysStartup_InitMemory_body L secinfo i m).byte x = 0) := by
  refine ⟨fun hdis => ⟨fun h => hdis (recordAddr L i) h, ?_⟩, fun hc hp => ?_,
    fun hc hp hs h0 hW hr => ?_, fun hc hp hs hsrc x hx => ?_⟩
  · rw [SysStartup_InitMemory_body_eq]
    by_cases hp : isCopyEntry L i
    · have hnc : ¬ clearApplied L secinfo i := fun hc => hdis (recordAddr L i) ⟨hc.1, hp⟩
      rw [if_pos hp, if_neg hnc]
      exact Or.inr (Or.inr rfl)
    · rw [if_neg hp]
      by_cases hc : clearApplied L secinfo i
      · rw [if_pos hc]
        exact Or.inr (Or.inl rfl)
      · rw [if_neg hc]
        exact Or.inl rfl
  · rw [SysStartup_InitMemory_body_eq, if_pos hp]
    by_cases hs : inStack L (secinfo i).targetAddr
    · rw [if_pos hs, if_neg (fun h => h.2 hs)]
    · rw [if_neg hs, if_pos ⟨hc, hs⟩]
  · rw [SysStartup_InitMemory_body_eq, if_pos hp, if_pos ⟨hc, hs⟩]
    obtain ⟨n, hn⟩ := Nat.exists_eq_add_of_le (show 1 ≤ (secinfo i).size from h0)
    have hn' : (secinfo i).size = n + 1 := by omega
    unfold SysStartup_Memcpy
    rw [forLoop_eq_foldl]
    have hfirst := Memcpy_fold_first
      (SysStartup_Memset m (secinfo i).targetAddr 0 (secinfo i).size)
      (secinfo i).targetAddr (secinfo i).sourceAddr n (by omega)
    rw [hn'] at hr ⊢
    rw [hn'] at hfirst
    rw [hfirst, SysStartup_Memset_byte, if_pos hr]
    rfl
  · rw [SysStartup_InitMemory_body_eq, if_pos hp, if_pos ⟨hc, hs⟩]
    unfold SysStartup_Memcpy
    rw [forLoop_eq_foldl]
    refine Memcpy_fold_zero _ _ _ _ (fun y hy => ?_) hsrc _ (le_refl _) x hx
    rw [SysStartup_Memset_byte, if_pos hy]
    rfl

/-- In `imageClearCopy`, with disjoint sub-ranges, record 0 is cleared only; in
`imageBoth` the record of `tableSelf` is cleared and then copied from inside the
cleared region, so that the byte at `0x2000` ends as zero although the byte at
the source `0x2002` was not zero. -/
theorem SysStartup_InitMemory_body_both_witness :
    ¬ (isClearEntry imageClearCopy 0 ∧ isCopyEntry imageClearCopy 0) ∧
    (SysStartup_InitMemory_body imageBoth tableSelf 0 ramPattern).byte 0x2000 = 0 ∧
    ramPattern.byte 0x2002 ≠ 0 :=
  ⟨((SysStartup_InitMemory_body_both imageClearCopy tableClearThenCopy 0 ramPattern).1
      (by intro a; simp only [imageClearCopy, image]; omega)).1,
    (SysStartup_InitMemory_body_both imageBoth tableSelf 0 ramPattern).2.2.1
      (by decide) (by decide) (by decide) (by decide) (by decide) (by decide),
    by decide⟩

end RH850
